import Mathlib

/-!
Shallow embedding of the video playback reliability tester
(src/src/app/page.tsx) and verification of its specification claims.

Modelling conventions:
  - JS numbers (timestamps from performance.now, percentages, seconds) are
    embedded as exact rationals; `x.toFixed(d)` followed by parseFloat is
    embedded as round-half-up to d decimal places (toFixed1 / toFixed2).
  - The per-run React component SimulationCard is embedded as a state
    machine on `Card`: the run state slice `Sim`, the component refs
    (rebufferingTimerRef, ttffStartRef), and one Boolean per timer the
    component can have outstanding (the 250ms playback sampler interval,
    the scheduled completion timeout, the 3s chaos interval, the
    begin-playback timeout armed on pending entry).  `draws` counts the
    Math.random() calls made by injectChaos and `faultCycles` the chaos
    fault cycles actually performed.
  - Events are media element events (error, playing, waiting, stalled,
    canplay) and timer firings; a timer firing when its flag is off is a
    no-op (the timer does not exist).  Timer firing times are adversarial,
    which over-approximates the real fixed cadences.
  - React effect semantics: the lifecycle useEffect has `status` among its
    dependencies; when a handler changes `status` the previous effect
    invocation is cleaned up and the effect re-runs (withEffect), modelled
    as running to completion before the next event, matching the
    single-threaded cooperative scheduling model of the spec.  The cleanup
    returned by a run with status `running` clears only the completion
    timeout; the cleanup returned otherwise clears the sampler and chaos
    intervals.  Event listeners are re-attached on every effect run, so
    while the card is mounted all media events are handled.
  - onUpdate(id, patchOrFunction) from inside the card acts on the card
    own slice; patches are partial records (`Patch`) merged over the state
    exactly as the spread `\x7b ...sim, ...updates \x7d` does.
-/

namespace MediaStability

/-- Lifecycle status of a test run (the `status` field in page.tsx). -/
inductive Status where
  | pending
  | running
  | completed
  | failed
deriving DecidableEq, Repr

/-- One entry of the PRESETS table (immutable chaos preset record). -/
structure Preset where
  name : String
  description : String
  delay : ℚ
  errorRate : ℚ
  chaosType : String
deriving DecidableEq, Repr

/-- TEST_DURATION_SECONDS = 60 (page.tsx line 6). -/
def TEST_DURATION_SECONDS : ℚ := 60

/-- The `baseline` entry of PRESETS (page.tsx line 10). -/
def baselinePreset : Preset :=
  { name := "BASELINE (STABLE)",
    description := "Standard load with no injected errors. System check complete.",
    delay := 0, errorRate := 0, chaosType := "none" }

/-- The `latency` entry of PRESETS (page.tsx line 11). -/
def latencyPreset : Preset :=
  { name := "LATENCY INJECT",
    description := "Simulates 1 second initial network delay. High-stress pre-buffer test.",
    delay := 1000, errorRate := 0, chaosType := "none" }

/-- The `404` entry of PRESETS (page.tsx line 12). -/
def notFoundPreset : Preset :=
  { name := "NETWORK ERROR (10%)",
    description := "10% chance of a segment fault during transmission.",
    delay := 0, errorRate := 1/10, chaosType := "404" }

/-- The `spikey` entry of PRESETS (page.tsx line 13). -/
def spikeyPreset : Preset :=
  { name := "SPIKE CHAOS",
    description := "Randomly injects packet drops and buffering events. High variability.",
    delay := 0, errorRate := 1/20, chaosType := "spikey" }

/-- The fixed preset table PRESETS (page.tsx lines 9-14).  A JS object
lookup `PRESETS[key]` yields `undefined` for any key other than the four
defined ones; this is embedded as an Option-valued lookup. -/
def PRESETS (key : String) : Option Preset :=
  if key = "baseline" then some baselinePreset
  else if key = "latency" then some latencyPreset
  else if key = "404" then some notFoundPreset
  else if key = "spikey" then some spikeyPreset
  else none

/-- The state slice of one simulation run (the objects stored in the
`simulations` array: see the literal built in SimulationCreator.handleCreate,
page.tsx lines 373-387). -/
structure Sim where
  id : String
  name : String
  videoUrl : String
  preset : String
  status : Status
  isMinimized : Bool
  ttff : Option ℚ
  rebufferingCount : Nat
  rebufferingTime : ℚ
  errorCount : Nat
  playbackPercent : ℚ
  startTime : Option ℚ
  endTime : Option ℚ
deriving DecidableEq, Repr

/-- The config lookup `const config = PRESETS[preset]` (page.tsx line 62). -/
def config (sim : Sim) : Option Preset :=
  PRESETS sim.preset

/-- A partial update object as passed to onUpdate: any subset of the
mutable fields.  (The code never patches the immutable id / name /
videoUrl / preset fields.) -/
structure Patch where
  status : Option Status := none
  isMinimized : Option Bool := none
  ttff : Option ℚ := none
  rebufferingCount : Option Nat := none
  rebufferingTime : Option ℚ := none
  errorCount : Option Nat := none
  playbackPercent : Option ℚ := none
  startTime : Option ℚ := none
  endTime : Option ℚ := none

/-- The object spread `\x7b ...sim, ...updates \x7d` in
handleUpdateSimulation (page.tsx line 498): fields present in the patch
replace the current value, all others are kept. -/
def mergePatch (sim : Sim) (p : Patch) : Sim :=
  { sim with
    status := p.status.getD sim.status
    isMinimized := p.isMinimized.getD sim.isMinimized
    ttff := match p.ttff with | some v => some v | none => sim.ttff
    rebufferingCount := p.rebufferingCount.getD sim.rebufferingCount
    rebufferingTime := p.rebufferingTime.getD sim.rebufferingTime
    errorCount := p.errorCount.getD sim.errorCount
    playbackPercent := p.playbackPercent.getD sim.playbackPercent
    startTime := match p.startTime with | some v => some v | none => sim.startTime
    endTime := match p.endTime with | some v => some v | none => sim.endTime }

/-- The second argument of handleUpdateSimulation: either a plain patch
object or an updater function of the current state
(`typeof updates === 'function'`, page.tsx line 498). -/
inductive Updates where
  | patch (p : Patch)
  | func (f : Sim → Patch)

/-- `\x7b ...sim, ...(typeof updates === 'function' ? updates(sim) : updates) \x7d`
(page.tsx line 498). -/
def applyUpdates (sim : Sim) (u : Updates) : Sim :=
  match u with
  | .patch p => mergePatch sim p
  | .func f => mergePatch sim (f sim)

/-- handleUpdateSimulation (page.tsx lines 494-502): map over the list,
patching the run whose id matches, leaving every other run unchanged. -/
def handleUpdateSimulation (sims : List Sim) (id : String) (updates : Updates) :
    List Sim :=
  sims.map (fun sim => if sim.id = id then applyUpdates sim updates else sim)

/-- handleRemoveSimulation (page.tsx lines 504-506). -/
def handleRemoveSimulation (sims : List Sim) (id : String) : List Sim :=
  sims.filter (fun sim => sim.id != id)

/-- minimizedSimulations (page.tsx line 508). -/
def minimizedSimulations (sims : List Sim) : List Sim :=
  sims.filter (fun s => s.isMinimized)

/-- activeSimulations (page.tsx line 509). -/
def activeSimulations (sims : List Sim) : List Sim :=
  sims.filter (fun s => !s.isMinimized)

/-- A freshly created simulation object (SimulationCreator.handleCreate,
page.tsx lines 373-387): pending status, all metrics zeroed / null. -/
def initialSim (id name videoUrl preset : String) : Sim :=
  { id := id, name := name, videoUrl := videoUrl, preset := preset,
    status := .pending, isMinimized := false, ttff := none,
    rebufferingCount := 0, rebufferingTime := 0, errorCount := 0,
    playbackPercent := 0, startTime := none, endTime := none }

/-- parseFloat(x.toFixed(1)): round half up to one decimal place. -/
def toFixed1 (x : ℚ) : ℚ :=
  (Int.floor (x * 10 + 1/2) : ℚ) / 10

/-- parseFloat(x.toFixed(2)): round half up to two decimal places. -/
def toFixed2 (x : ℚ) : ℚ :=
  (Int.floor (x * 100 + 1/2) : ℚ) / 100

/-- The full per-component state of one mounted SimulationCard: the run
state slice plus the component refs and one flag per timer that can be
outstanding. -/
structure Card where
  sim : Sim
  /-- rebufferingTimerRef.current (0 = no open rebuffer interval). -/
  rebufferingTimer : ℚ
  /-- ttffStartRef.current (0 = first-frame timer not armed). -/
  ttffStart : ℚ
  /-- the 250ms playback sampler interval (intervalRef) is live. -/
  samplerArmed : Bool
  /-- the completion timeout scheduled on entering running is live. -/
  completionArmed : Bool
  /-- the 3s chaos interval (chaosIntervalRef) is live. -/
  chaosArmed : Bool
  /-- the begin-playback timeout armed on pending entry is live. -/
  beginPlayArmed : Bool
  /-- number of Math.random() draws performed by injectChaos. -/
  draws : Nat
  /-- number of chaos fault cycles performed (draw below errorRate). -/
  faultCycles : Nat
  /-- the last performance.now() value observed (for trace bookkeeping). -/
  clock : ℚ
deriving DecidableEq, Repr

/-- onUpdate from inside the card acts on the card own state slice
(the registry maps it over the list, patching only this run). -/
def onUpdateSelf (c : Card) (u : Updates) : Card :=
  { c with sim := applyUpdates c.sim u }

/-- logError (page.tsx lines 70-79): functional update incrementing the
fault counter and forcing failed while the run is non-terminal. -/
def logErrorPatch (sim : Sim) : Patch :=
  { errorCount := some (sim.errorCount + 1),
    status := some (if sim.status = .running ∨ sim.status = .pending
                    then .failed else sim.status) }

/-- handleRebufferingStart (page.tsx lines 81-86): open a rebuffer
interval if none is open, and always count the event. -/
def handleRebufferingStart (now : ℚ) (c : Card) : Card :=
  let c := if c.rebufferingTimer = 0 then { c with rebufferingTimer := now } else c
  onUpdateSelf c (.func fun sim => { rebufferingCount := some (sim.rebufferingCount + 1) })

/-- handleRebufferingEnd (page.tsx lines 88-96): if an interval is open,
add its duration in seconds to the cumulative time and close it. -/
def handleRebufferingEnd (now : ℚ) (c : Card) : Card :=
  if c.rebufferingTimer > 0 then
    let timeElapsed := now - c.rebufferingTimer
    let c := onUpdateSelf c (.func fun sim =>
      { rebufferingTime := some (sim.rebufferingTime + timeElapsed / 1000) })
    { c with rebufferingTimer := 0 }
  else c

/-- The startTime captured by the sampler closure; it is set exactly once
at pending entry, so the capture equals the stored field.  (getD 0 is
never exercised from a mounted card: startTime is some after mount.) -/
def startT (c : Card) : ℚ :=
  c.sim.startTime.getD 0

/-- handlePlaybackUpdate (page.tsx lines 98-106).  The `status` in its
guard is the closure captured value from arming time, which is always
running for a live sampler, so a live sampler always passes the guard. -/
def handlePlaybackUpdate (now : ℚ) (c : Card) : Card :=
  let currentTestTime := now - startT c
  let percent := min 100 (currentTestTime / (TEST_DURATION_SECONDS * 1000) * 100)
  onUpdateSelf c (.patch { playbackPercent := some (toFixed1 percent) })

/-- handleInitialPlay (page.tsx lines 108-116): on a playing event, if the
first-frame timer is armed, record ttff, disarm it and set status to
running (unconditionally); always close any open rebuffer interval. -/
def handleInitialPlay (now : ℚ) (c : Card) : Card :=
  let c :=
    if c.ttffStart > 0 then
      let timeToFirstFrame := now - c.ttffStart
      let c := onUpdateSelf c (.patch { ttff := some (toFixed2 timeToFirstFrame) })
      let c := { c with ttffStart := 0 }
      onUpdateSelf c (.patch { status := some .running })
    else c
  handleRebufferingEnd now c

/-- injectChaos (page.tsx lines 118-135): draw a uniform value; below the
preset errorRate, perform a fault cycle (invalid source then restore).
The fault cycle touches only the media element, never the run state. -/
def injectChaos (cfg : Preset) (draw : ℚ) (c : Card) : Card :=
  { c with draws := c.draws + 1,
           faultCycles := c.faultCycles + (if draw < cfg.errorRate then 1 else 0) }

/-- The completion timeout body (page.tsx lines 169-181): clear the
sampler and chaos intervals, stop playback, then set status completed,
record endTime and force playbackPercent to 100 (the functional update
ignores the previous state). -/
def completionAction (now : ℚ) (c : Card) : Card :=
  let c := { c with samplerArmed := false, chaosArmed := false, completionArmed := false }
  onUpdateSelf c (.func fun _sim =>
    { status := some .completed, endTime := some now, playbackPercent := some 100 })

/-- The cleanup returned by the previous lifecycle effect invocation
(page.tsx lines 187-199): a run with status running returns a cleanup
clearing only the completion timeout; any other run returns the cleanup
clearing the sampler and chaos intervals (and detaching listeners, which
the following effect run immediately re-attaches). -/
def effectCleanup (prevStatus : Status) (c : Card) : Card :=
  if prevStatus = .running then { c with completionArmed := false }
  else { c with samplerArmed := false, chaosArmed := false }

/-- The lifecycle effect body (page.tsx lines 138-199): pending entry
records startTime, arms the first-frame ref and the begin-playback
timeout; a running run arms the sampler, the completion timeout and (for
a fault-injecting chaos category) the chaos interval. -/
def effectRun (cfg : Preset) (now : ℚ) (c : Card) : Card :=
  let c :=
    if c.sim.status = .pending ∧ c.sim.startTime = none then
      let c := onUpdateSelf c (.patch { startTime := some now })
      { c with ttffStart := now, beginPlayArmed := true }
    else c
  if c.sim.status = .running then
    { c with samplerArmed := true, completionArmed := true,
             chaosArmed := (cfg.chaosType = "404" || cfg.chaosType = "spikey") }
  else c

/-- React re-runs the lifecycle effect when its dependencies change;
status is a dependency, so a handler that changed status is followed by
the previous cleanup and a fresh effect run (run to completion before the
next event, per the cooperative scheduling model). -/
def withEffect (cfg : Preset) (now : ℚ) (prev : Status) (c : Card) : Card :=
  if c.sim.status = prev then c else effectRun cfg now (effectCleanup prev c)

/-- Events driving one mounted card: media element events and timer
firings, each tagged with the performance.now() value at delivery. -/
inductive Event where
  | mediaError (now : ℚ)
  | playing (now : ℚ)
  | waiting (now : ℚ)
  | stalled (now : ℚ)
  | canplay (now : ℚ)
  | samplerTick (now : ℚ)
  | completionFire (now : ℚ)
  | chaosTick (now draw : ℚ)
  | beginPlayFire (now : ℚ)
deriving DecidableEq, Repr

/-- Delivery time of an event. -/
def eTime : Event → ℚ
  | .mediaError now => now
  | .playing now => now
  | .waiting now => now
  | .stalled now => now
  | .canplay now => now
  | .samplerTick now => now
  | .completionFire now => now
  | .chaosTick now _ => now
  | .beginPlayFire now => now

/-- Clock bookkeeping helper: record the delivery time of an event. -/
def setClock (t : ℚ) (c : Card) : Card :=
  { c with clock := t }

/-- One event step of a mounted card: run the attached handler (timer
events are no-ops when the timer is not live), then the effect re-run if
the handler changed status. -/
def step (cfg : Preset) (c : Card) (e : Event) : Card :=
  let prev := c.sim.status
  let c' :=
    match e with
    | .mediaError _now => onUpdateSelf c (.func logErrorPatch)
    | .playing now => handleInitialPlay now c
    | .waiting now => handleRebufferingStart now c
    | .stalled now => handleRebufferingStart now c
    | .canplay now => handleRebufferingEnd now c
    | .samplerTick now => if c.samplerArmed then handlePlaybackUpdate now c else c
    | .completionFire now => if c.completionArmed then completionAction now c else c
    | .chaosTick _now draw => if c.chaosArmed then injectChaos cfg draw c else c
    | .beginPlayFire _now => if c.beginPlayArmed then { c with beginPlayArmed := false } else c
  withEffect cfg (eTime e) prev { c' with clock := eTime e }

/-- Mounting a card over a freshly created simulation: the first effect
run takes the pending entry branch. -/
def mountCard (cfg : Preset) (t0 : ℚ) (sim : Sim) : Card :=
  effectRun cfg t0
    { sim := sim, rebufferingTimer := 0, ttffStart := 0, samplerArmed := false,
      completionArmed := false, chaosArmed := false, beginPlayArmed := false,
      draws := 0, faultCycles := 0, clock := t0 }

/-- Fold a list of events over a card. -/
def runFrom (cfg : Preset) (c : Card) (es : List Event) : Card :=
  es.foldl (step cfg) c

/-- A complete run: mount a freshly created simulation at time t0 and
deliver the events es. -/
def runCard (cfg : Preset) (t0 : ℚ) (sim : Sim) (es : List Event) : Card :=
  runFrom cfg (mountCard cfg t0 sim) es

/-- Unmounting (run removal): React runs the cleanup returned by the last
effect invocation, whose branch is determined by the status at that run. -/
def unmountCleanup (c : Card) : Card :=
  effectCleanup c.sim.status c

/-- Wellformed event timing: performance.now() is non-decreasing. -/
def wfB (t : ℚ) : List Event → Bool
  | [] => true
  | e :: es => decide (t ≤ eTime e) && wfB (eTime e) es

/-- The percentage value the sampler stores for a run started at `start`
when it fires at time `t` (body of handlePlaybackUpdate). -/
def pAt (start t : ℚ) : ℚ :=
  toFixed1 (min 100 ((t - start) / (TEST_DURATION_SECONDS * 1000) * 100))

theorem handlePlaybackUpdate_percent (now : ℚ) (c : Card) :
    (handlePlaybackUpdate now c).sim.playbackPercent = pAt (startT c) now := rfl

theorem toFixed1_mono {x y : ℚ} (h : x ≤ y) : toFixed1 x ≤ toFixed1 y := by
  unfold toFixed1
  have : Int.floor (x * 10 + 1/2) ≤ Int.floor (y * 10 + 1/2) :=
    Int.floor_le_floor (by linarith)
  have : ((Int.floor (x * 10 + 1/2) : ℚ)) ≤ ((Int.floor (y * 10 + 1/2) : ℚ)) :=
    Int.cast_le.mpr this
  linarith

theorem toFixed1_nonneg {x : ℚ} (h : 0 ≤ x) : 0 ≤ toFixed1 x := by
  unfold toFixed1
  have : (0 : ℤ) ≤ Int.floor (x * 10 + 1/2) := Int.le_floor.mpr (by push_cast; linarith)
  have : (0 : ℚ) ≤ (Int.floor (x * 10 + 1/2) : ℚ) := Int.cast_nonneg.mpr this
  linarith

theorem toFixed1_le_100 {x : ℚ} (h : x ≤ 100) : toFixed1 x ≤ 100 := by
  unfold toFixed1
  have hlt : Int.floor (x * 10 + 1/2) < (1001 : ℤ) := by
    rw [Int.floor_lt]
    push_cast
    linarith
  have : Int.floor (x * 10 + 1/2) ≤ (1000 : ℤ) := by omega
  have : ((Int.floor (x * 10 + 1/2) : ℚ)) ≤ (1000 : ℚ) := by exact_mod_cast this
  linarith

theorem pAt_mono (start : ℚ) {t t' : ℚ} (h : t ≤ t') : pAt start t ≤ pAt start t' := by
  unfold pAt
  apply toFixed1_mono
  apply min_le_min (le_refl 100)
  unfold TEST_DURATION_SECONDS
  have : (t - start) / (60 * 1000) ≤ (t' - start) / (60 * 1000) := by
    gcongr
  linarith

theorem pAt_nonneg {start t : ℚ} (h : start ≤ t) : 0 ≤ pAt start t := by
  unfold pAt
  apply toFixed1_nonneg
  apply le_min (by norm_num)
  unfold TEST_DURATION_SECONDS
  apply mul_nonneg (div_nonneg (by linarith) (by norm_num)) (by norm_num)

theorem pAt_le_100 (start t : ℚ) : pAt start t ≤ 100 :=
  toFixed1_le_100 (min_le_left _ _)

/-- Reachability invariant of a mounted card, preserved by every event. -/
structure Inv (c : Card) : Prop where
  clock_nonneg : 0 ≤ c.clock
  comp_running : c.completionArmed = true → c.sim.status = .running
  ttff_cleared : c.sim.status = .running ∨ c.sim.status = .completed → c.ttffStart = 0
  ttff_set_cleared : c.sim.ttff.isSome → c.ttffStart = 0
  start_some : c.sim.startTime.isSome
  start_nonneg : 0 ≤ startT c
  start_le : startT c ≤ c.clock
  rebuf_nonneg : 0 ≤ c.rebufferingTimer
  rebuf_le : c.rebufferingTimer ≤ c.clock
  pct_nonneg : 0 ≤ c.sim.playbackPercent
  pct_le : c.sim.playbackPercent ≤ 100
  pct_bound : c.sim.status ≠ .completed → c.sim.playbackPercent ≤ pAt (startT c) c.clock
  completed_pct : c.sim.status = .completed → c.sim.playbackPercent = 100
  completed_sampler : c.sim.status = .completed → c.samplerArmed = false

theorem mountCard_initial (cfg : Preset) (t0 : ℚ) (i n u p : String) :
    mountCard cfg t0 (initialSim i n u p) =
    { sim := { id := i, name := n, videoUrl := u, preset := p, status := .pending,
               isMinimized := false, ttff := none, rebufferingCount := 0,
               rebufferingTime := 0, errorCount := 0, playbackPercent := 0,
               startTime := some t0, endTime := none },
      rebufferingTimer := 0, ttffStart := t0, samplerArmed := false,
      completionArmed := false, chaosArmed := false, beginPlayArmed := true,
      draws := 0, faultCycles := 0, clock := t0 } := rfl

theorem inv_mount (cfg : Preset) (t0 : ℚ) (h0 : 0 ≤ t0) (i n u p : String) :
    Inv (mountCard cfg t0 (initialSim i n u p)) := by
  have hpt : (0 : ℚ) ≤ pAt t0 t0 := pAt_nonneg (le_refl t0)
  rw [mountCard_initial]
  constructor <;> simp_all [startT]

/-! Characterization lemmas: each handler application rewritten to an
explicit record, avoiding repeated unfolding of the definitions. -/

theorem logError_eq (c : Card) :
    onUpdateSelf c (.func logErrorPatch) =
    { c with sim := { c.sim with
        errorCount := c.sim.errorCount + 1,
        status := if c.sim.status = .running ∨ c.sim.status = .pending
                  then .failed else c.sim.status } } := rfl

theorem handleRebufferingStart_eq (now : ℚ) (c : Card) :
    handleRebufferingStart now c =
    { c with rebufferingTimer := if c.rebufferingTimer = 0 then now else c.rebufferingTimer,
             sim := { c.sim with rebufferingCount := c.sim.rebufferingCount + 1 } } := by
  by_cases h : c.rebufferingTimer = 0 <;>
    simp [handleRebufferingStart, h, onUpdateSelf, applyUpdates, mergePatch]

theorem handleRebufferingEnd_eq (now : ℚ) (c : Card) :
    handleRebufferingEnd now c =
    if c.rebufferingTimer > 0 then
      { c with rebufferingTimer := 0,
               sim := { c.sim with
                 rebufferingTime := c.sim.rebufferingTime + (now - c.rebufferingTimer) / 1000 } }
    else c := by
  by_cases h : c.rebufferingTimer > 0 <;>
    simp [handleRebufferingEnd, h, onUpdateSelf, applyUpdates, mergePatch]

theorem handleInitialPlay_eq (now : ℚ) (c : Card) :
    handleInitialPlay now c =
    handleRebufferingEnd now
      (if c.ttffStart > 0 then
        { c with ttffStart := 0,
                 sim := { c.sim with
                          ttff := some (toFixed2 (now - c.ttffStart)),
                          status := .running } }
      else c) := by
  by_cases h : c.ttffStart > 0 <;>
    simp [handleInitialPlay, h, onUpdateSelf, applyUpdates, mergePatch]

theorem handlePlaybackUpdate_eq (now : ℚ) (c : Card) :
    handlePlaybackUpdate now c =
    { c with sim := { c.sim with playbackPercent := pAt (startT c) now } } := rfl

theorem completionAction_eq (now : ℚ) (c : Card) :
    completionAction now c =
    { c with samplerArmed := false, chaosArmed := false, completionArmed := false,
             sim := { c.sim with
                      status := .completed,
                      endTime := some now,
                      playbackPercent := 100 } } := rfl

theorem effectRun_some (cfg : Preset) (now : ℚ) (c : Card)
    (hs : c.sim.startTime.isSome) :
    effectRun cfg now c =
    if c.sim.status = .running then
      { c with samplerArmed := true, completionArmed := true,
               chaosArmed := (cfg.chaosType = "404" || cfg.chaosType = "spikey") }
    else c := by
  have hnone : ¬(c.sim.status = .pending ∧ c.sim.startTime = none) := by
    rintro ⟨-, h⟩
    simp [h] at hs
  simp [effectRun, hnone]

theorem step_mediaError_eq (cfg : Preset) (c : Card) (now : ℚ) :
    step cfg c (.mediaError now) =
    withEffect cfg now c.sim.status
      (setClock now (onUpdateSelf c (.func logErrorPatch))) := rfl

theorem step_playing_eq (cfg : Preset) (c : Card) (now : ℚ) :
    step cfg c (.playing now) =
    withEffect cfg now c.sim.status (setClock now (handleInitialPlay now c)) := rfl

theorem step_waiting_eq (cfg : Preset) (c : Card) (now : ℚ) :
    step cfg c (.waiting now) =
    withEffect cfg now c.sim.status (setClock now (handleRebufferingStart now c)) := rfl

theorem step_stalled_eq (cfg : Preset) (c : Card) (now : ℚ) :
    step cfg c (.stalled now) =
    withEffect cfg now c.sim.status (setClock now (handleRebufferingStart now c)) := rfl

theorem step_canplay_eq (cfg : Preset) (c : Card) (now : ℚ) :
    step cfg c (.canplay now) =
    withEffect cfg now c.sim.status (setClock now (handleRebufferingEnd now c)) := rfl

theorem step_samplerTick_eq (cfg : Preset) (c : Card) (now : ℚ) :
    step cfg c (.samplerTick now) =
    withEffect cfg now c.sim.status
      (setClock now (if c.samplerArmed then handlePlaybackUpdate now c else c)) := rfl

theorem step_completionFire_eq (cfg : Preset) (c : Card) (now : ℚ) :
    step cfg c (.completionFire now) =
    withEffect cfg now c.sim.status
      (setClock now (if c.completionArmed then completionAction now c else c)) := rfl

theorem step_chaosTick_eq (cfg : Preset) (c : Card) (now draw : ℚ) :
    step cfg c (.chaosTick now draw) =
    withEffect cfg now c.sim.status
      (setClock now (if c.chaosArmed then injectChaos cfg draw c else c)) := rfl

theorem step_beginPlayFire_eq (cfg : Preset) (c : Card) (now : ℚ) :
    step cfg c (.beginPlayFire now) =
    withEffect cfg now c.sim.status
      (setClock now (if c.beginPlayArmed then { c with beginPlayArmed := false } else c)) := rfl

/-- Inv is preserved by the effect re-run that follows a status change,
provided the card satisfies the Inv fields with the completion timeout
tied to the previous status. -/
theorem inv_withEffect (cfg : Preset) (now : ℚ) (prev : Status) (c : Card)
    (kcomp : c.completionArmed = true → prev = .running)
    (kclock : 0 ≤ c.clock)
    (kttffc : c.sim.status = .running ∨ c.sim.status = .completed → c.ttffStart = 0)
    (kttffs : c.sim.ttff.isSome = true → c.ttffStart = 0)
    (kstart : c.sim.startTime.isSome = true)
    (kstart0 : 0 ≤ startT c)
    (kstartle : startT c ≤ c.clock)
    (krb0 : 0 ≤ c.rebufferingTimer)
    (krble : c.rebufferingTimer ≤ c.clock)
    (kpct0 : 0 ≤ c.sim.playbackPercent)
    (kpct100 : c.sim.playbackPercent ≤ 100)
    (kpctb : c.sim.status ≠ .completed → c.sim.playbackPercent ≤ pAt (startT c) c.clock)
    (kcpct : c.sim.status = .completed → c.sim.playbackPercent = 100)
    (kcsmp : c.sim.status = .completed → c.samplerArmed = false) :
    Inv (withEffect cfg now prev c) := by
  unfold withEffect
  by_cases hp : c.sim.status = prev
  · rw [if_pos hp]
    exact ⟨kclock, fun h => hp ▸ kcomp h, kttffc, kttffs, kstart, kstart0, kstartle,
           krb0, krble, kpct0, kpct100, kpctb, kcpct, kcsmp⟩
  · rw [if_neg hp]
    have hs1 : (effectCleanup prev c).sim.startTime.isSome = true := by
      unfold effectCleanup
      split_ifs <;> exact kstart
    rw [effectRun_some cfg now _ hs1]
    unfold effectCleanup
    by_cases hprev : prev = .running <;>
      by_cases hrun : c.sim.status = .running <;>
      simp only [hprev, hrun, ite_true, ite_false, if_true, if_false] <;>
      constructor <;>
      (try simp_all [startT]) <;>
      first
        | rfl
        | linarith
        | (exact fun h => absurd (kcomp h) hprev)
        | (intro hx; simp_all [startT]; try linarith)

theorem inv_step_mediaError (cfg : Preset) {c : Card} (hI : Inv c) (now : ℚ)
    (ht : c.clock ≤ now) : Inv (step cfg c (.mediaError now)) := by
  obtain ⟨h1, h2, h3, h4, h5, h6, h7, h8, h9, h10, h11, h12, h13, h14⟩ := hI
  have hmono := pAt_mono (startT c) ht
  have h0 : (0:ℚ) ≤ now := le_trans h1 ht
  rw [step_mediaError_eq, logError_eq]
  by_cases hnt : c.sim.status = .running ∨ c.sim.status = .pending <;>
    apply inv_withEffect <;>
    simp only [hnt, ite_true, ite_false, if_true, if_false, setClock] <;>
    (try simp_all [startT]) <;>
    first
      | rfl
      | linarith
      | (intro hx; simp_all [setClock, startT]; try linarith)
      | (refine le_trans (h12 ?_) hmono; intro hc; simp_all)

theorem inv_step_playing (cfg : Preset) {c : Card} (hI : Inv c) (now : ℚ)
    (ht : c.clock ≤ now) : Inv (step cfg c (.playing now)) := by
  obtain ⟨h1, h2, h3, h4, h5, h6, h7, h8, h9, h10, h11, h12, h13, h14⟩ := hI
  have hmono := pAt_mono (startT c) ht
  have h0 : (0:ℚ) ≤ now := le_trans h1 ht
  rw [step_playing_eq, handleInitialPlay_eq, handleRebufferingEnd_eq]
  by_cases htf : c.ttffStart > 0 <;>
    by_cases hrb : c.rebufferingTimer > 0 <;>
    simp only [htf, hrb, ite_true, ite_false, if_true, if_false] <;>
    apply inv_withEffect <;>
    simp only [setClock] <;>
    (try simp_all [startT]) <;>
    first
      | rfl
      | linarith
      | (intro hx; simp_all [setClock, startT]; try linarith)
      | (refine le_trans (h12 ?_) hmono; intro hc; simp_all)

theorem inv_step_waiting (cfg : Preset) {c : Card} (hI : Inv c) (now : ℚ)
    (ht : c.clock ≤ now) : Inv (step cfg c (.waiting now)) := by
  obtain ⟨h1, h2, h3, h4, h5, h6, h7, h8, h9, h10, h11, h12, h13, h14⟩ := hI
  have hmono := pAt_mono (startT c) ht
  have h0 : (0:ℚ) ≤ now := le_trans h1 ht
  rw [step_waiting_eq, handleRebufferingStart_eq]
  by_cases hrb : c.rebufferingTimer = 0 <;>
    simp only [hrb, ite_true, ite_false, if_true, if_false] <;>
    apply inv_withEffect <;>
    simp only [setClock] <;>
    (try simp_all [startT]) <;>
    first
      | rfl
      | linarith
      | (intro hx; simp_all [setClock, startT]; try linarith)
      | (refine le_trans (h12 ?_) hmono; intro hc; simp_all)

theorem inv_step_stalled (cfg : Preset) {c : Card} (hI : Inv c) (now : ℚ)
    (ht : c.clock ≤ now) : Inv (step cfg c (.stalled now)) := by
  obtain ⟨h1, h2, h3, h4, h5, h6, h7, h8, h9, h10, h11, h12, h13, h14⟩ := hI
  have hmono := pAt_mono (startT c) ht
  have h0 : (0:ℚ) ≤ now := le_trans h1 ht
  rw [step_stalled_eq, handleRebufferingStart_eq]
  by_cases hrb : c.rebufferingTimer = 0 <;>
    simp only [hrb, ite_true, ite_false, if_true, if_false] <;>
    apply inv_withEffect <;>
    simp only [setClock] <;>
    (try simp_all [startT]) <;>
    first
      | rfl
      | linarith
      | (intro hx; simp_all [setClock, startT]; try linarith)
      | (refine le_trans (h12 ?_) hmono; intro hc; simp_all)

theorem inv_step_canplay (cfg : Preset) {c : Card} (hI : Inv c) (now : ℚ)
    (ht : c.clock ≤ now) : Inv (step cfg c (.canplay now)) := by
  obtain ⟨h1, h2, h3, h4, h5, h6, h7, h8, h9, h10, h11, h12, h13, h14⟩ := hI
  have hmono := pAt_mono (startT c) ht
  have h0 : (0:ℚ) ≤ now := le_trans h1 ht
  rw [step_canplay_eq, handleRebufferingEnd_eq]
  by_cases hrb : c.rebufferingTimer > 0 <;>
    simp only [hrb, ite_true, ite_false, if_true, if_false] <;>
    apply inv_withEffect <;>
    simp only [setClock] <;>
    (try simp_all [startT]) <;>
    first
      | rfl
      | linarith
      | (intro hx; simp_all [setClock, startT]; try linarith)
      | (refine le_trans (h12 ?_) hmono; intro hc; simp_all)

theorem inv_step_samplerTick (cfg : Preset) {c : Card} (hI : Inv c) (now : ℚ)
    (ht : c.clock ≤ now) : Inv (step cfg c (.samplerTick now)) := by
  obtain ⟨h1, h2, h3, h4, h5, h6, h7, h8, h9, h10, h11, h12, h13, h14⟩ := hI
  have hmono := pAt_mono (startT c) ht
  have h0 : (0:ℚ) ≤ now := le_trans h1 ht
  have hps : startT c ≤ now := le_trans h7 ht
  have hp0 : (0:ℚ) ≤ pAt (startT c) now := pAt_nonneg hps
  have hp100 : pAt (startT c) now ≤ 100 := pAt_le_100 _ _
  rw [step_samplerTick_eq]
  by_cases hsa : c.samplerArmed <;>
    simp only [hsa, ite_true, ite_false, if_true, if_false, handlePlaybackUpdate_eq] <;>
    apply inv_withEffect <;>
    simp only [setClock] <;>
    (try simp_all [startT]) <;>
    first
      | rfl
      | linarith
      | (intro hx; simp_all [setClock, startT]; try linarith)
      | (refine le_trans (h12 ?_) hmono; intro hc; simp_all)

theorem inv_step_completionFire (cfg : Preset) {c : Card} (hI : Inv c) (now : ℚ)
    (ht : c.clock ≤ now) : Inv (step cfg c (.completionFire now)) := by
  obtain ⟨h1, h2, h3, h4, h5, h6, h7, h8, h9, h10, h11, h12, h13, h14⟩ := hI
  have hmono := pAt_mono (startT c) ht
  have h0 : (0:ℚ) ≤ now := le_trans h1 ht
  rw [step_completionFire_eq]
  by_cases hca : c.completionArmed <;>
    simp only [hca, ite_true, ite_false, if_true, if_false, completionAction_eq] <;>
    apply inv_withEffect <;>
    simp only [setClock] <;>
    (try simp_all [startT]) <;>
    first
      | rfl
      | linarith
      | (intro hx; simp_all [setClock, startT]; try linarith)
      | (refine le_trans (h12 ?_) hmono; intro hc; simp_all)

theorem inv_step_chaosTick (cfg : Preset) {c : Card} (hI : Inv c) (now draw : ℚ)
    (ht : c.clock ≤ now) : Inv (step cfg c (.chaosTick now draw)) := by
  obtain ⟨h1, h2, h3, h4, h5, h6, h7, h8, h9, h10, h11, h12, h13, h14⟩ := hI
  have hmono := pAt_mono (startT c) ht
  have h0 : (0:ℚ) ≤ now := le_trans h1 ht
  rw [step_chaosTick_eq]
  by_cases hca : c.chaosArmed <;>
    simp only [hca, ite_true, ite_false, if_true, if_false, injectChaos] <;>
    apply inv_withEffect <;>
    simp only [setClock] <;>
    (try simp_all [startT]) <;>
    first
      | rfl
      | linarith
      | (intro hx; simp_all [setClock, startT]; try linarith)
      | (refine le_trans (h12 ?_) hmono; intro hc; simp_all)

theorem inv_step_beginPlayFire (cfg : Preset) {c : Card} (hI : Inv c) (now : ℚ)
    (ht : c.clock ≤ now) : Inv (step cfg c (.beginPlayFire now)) := by
  obtain ⟨h1, h2, h3, h4, h5, h6, h7, h8, h9, h10, h11, h12, h13, h14⟩ := hI
  have hmono := pAt_mono (startT c) ht
  have h0 : (0:ℚ) ≤ now := le_trans h1 ht
  rw [step_beginPlayFire_eq]
  by_cases hba : c.beginPlayArmed <;>
    simp only [hba, ite_true, ite_false, if_true, if_false] <;>
    apply inv_withEffect <;>
    simp only [setClock] <;>
    (try simp_all [startT]) <;>
    first
      | rfl
      | linarith
      | (intro hx; simp_all [setClock, startT]; try linarith)
      | (refine le_trans (h12 ?_) hmono; intro hc; simp_all)

/-- Invariant preservation by an arbitrary event. -/
theorem inv_step (cfg : Preset) {c : Card} (hI : Inv c) (e : Event)
    (ht : c.clock ≤ eTime e) : Inv (step cfg c e) := by
  cases e with
  | mediaError now => exact inv_step_mediaError cfg hI now ht
  | playing now => exact inv_step_playing cfg hI now ht
  | waiting now => exact inv_step_waiting cfg hI now ht
  | stalled now => exact inv_step_stalled cfg hI now ht
  | canplay now => exact inv_step_canplay cfg hI now ht
  | samplerTick now => exact inv_step_samplerTick cfg hI now ht
  | completionFire now => exact inv_step_completionFire cfg hI now ht
  | chaosTick now draw => exact inv_step_chaosTick cfg hI now draw ht
  | beginPlayFire now => exact inv_step_beginPlayFire cfg hI now ht

/-! Field-level characterizations of a step, used to settle the claims. -/

theorem withEffect_sim (cfg : Preset) (now : ℚ) (prev : Status) (c : Card)
    (hs : c.sim.startTime.isSome = true) :
    (withEffect cfg now prev c).sim = c.sim := by
  unfold withEffect
  by_cases hp : c.sim.status = prev
  · rw [if_pos hp]
  · rw [if_neg hp]
    have hs1 : (effectCleanup prev c).sim.startTime.isSome = true := by
      unfold effectCleanup
      split_ifs <;> exact hs
    rw [effectRun_some cfg now _ hs1]
    unfold effectCleanup
    split_ifs <;> rfl

theorem withEffect_refs (cfg : Preset) (now : ℚ) (prev : Status) (c : Card)
    (hs : c.sim.startTime.isSome = true) :
    (withEffect cfg now prev c).rebufferingTimer = c.rebufferingTimer
    ∧ (withEffect cfg now prev c).ttffStart = c.ttffStart
    ∧ (withEffect cfg now prev c).clock = c.clock
    ∧ (withEffect cfg now prev c).draws = c.draws
    ∧ (withEffect cfg now prev c).faultCycles = c.faultCycles := by
  unfold withEffect
  by_cases hp : c.sim.status = prev
  · rw [if_pos hp]
    exact ⟨rfl, rfl, rfl, rfl, rfl⟩
  · rw [if_neg hp]
    have hs1 : (effectCleanup prev c).sim.startTime.isSome = true := by
      unfold effectCleanup
      split_ifs <;> exact hs
    rw [effectRun_some cfg now _ hs1]
    unfold effectCleanup
    split_ifs <;> exact ⟨rfl, rfl, rfl, rfl, rfl⟩

theorem sim_mediaError (cfg : Preset) (c : Card) (now : ℚ)
    (hs : c.sim.startTime.isSome = true) :
    (step cfg c (.mediaError now)).sim =
    { c.sim with
      errorCount := c.sim.errorCount + 1,
      status := if c.sim.status = .running ∨ c.sim.status = .pending
                then .failed else c.sim.status } := by
  rw [step_mediaError_eq, logError_eq, withEffect_sim]
  · rfl
  · exact hs

theorem sim_playing (cfg : Preset) (c : Card) (now : ℚ)
    (hs : c.sim.startTime.isSome = true) :
    (step cfg c (.playing now)).sim =
    (if (if c.ttffStart > 0 then
          { c with ttffStart := 0,
                   sim := { c.sim with
                            ttff := some (toFixed2 (now - c.ttffStart)),
                            status := .running } }
        else c).rebufferingTimer > 0 then
      { (if c.ttffStart > 0 then
          { c with ttffStart := 0,
                   sim := { c.sim with
                            ttff := some (toFixed2 (now - c.ttffStart)),
                            status := .running } }
        else c).sim with
        rebufferingTime := c.sim.rebufferingTime + (now - c.rebufferingTimer) / 1000 }
    else
      (if c.ttffStart > 0 then
        { c with ttffStart := 0,
                 sim := { c.sim with
                          ttff := some (toFixed2 (now - c.ttffStart)),
                          status := .running } }
      else c).sim) := by
  rw [step_playing_eq, handleInitialPlay_eq, handleRebufferingEnd_eq]
  rw [withEffect_sim]
  · by_cases htf : c.ttffStart > 0 <;>
      by_cases hrb : c.rebufferingTimer > 0 <;>
      simp [htf, hrb, setClock]
  · by_cases htf : c.ttffStart > 0 <;>
      by_cases hrb : c.rebufferingTimer > 0 <;>
      simp [htf, hrb, setClock, hs]

theorem sim_waiting (cfg : Preset) (c : Card) (now : ℚ)
    (hs : c.sim.startTime.isSome = true) :
    (step cfg c (.waiting now)).sim =
    { c.sim with rebufferingCount := c.sim.rebufferingCount + 1 } := by
  rw [step_waiting_eq, handleRebufferingStart_eq, withEffect_sim]
  · rfl
  · exact hs

theorem sim_stalled (cfg : Preset) (c : Card) (now : ℚ)
    (hs : c.sim.startTime.isSome = true) :
    (step cfg c (.stalled now)).sim =
    { c.sim with rebufferingCount := c.sim.rebufferingCount + 1 } := by
  rw [step_stalled_eq, handleRebufferingStart_eq, withEffect_sim]
  · rfl
  · exact hs

theorem sim_canplay (cfg : Preset) (c : Card) (now : ℚ)
    (hs : c.sim.startTime.isSome = true) :
    (step cfg c (.canplay now)).sim =
    (if c.rebufferingTimer > 0 then
      { c.sim with
        rebufferingTime := c.sim.rebufferingTime + (now - c.rebufferingTimer) / 1000 }
    else c.sim) := by
  rw [step_canplay_eq, handleRebufferingEnd_eq]
  rw [withEffect_sim]
  · by_cases hrb : c.rebufferingTimer > 0 <;> simp [hrb, setClock]
  · by_cases hrb : c.rebufferingTimer > 0 <;> simp [hrb, setClock, hs]

theorem sim_samplerTick (cfg : Preset) (c : Card) (now : ℚ)
    (hs : c.sim.startTime.isSome = true) :
    (step cfg c (.samplerTick now)).sim =
    (if c.samplerArmed then
      { c.sim with playbackPercent := pAt (startT c) now }
    else c.sim) := by
  rw [step_samplerTick_eq]
  rw [withEffect_sim]
  · by_cases hsa : c.samplerArmed <;> simp [hsa, setClock, handlePlaybackUpdate_eq]
  · by_cases hsa : c.samplerArmed <;> simp [hsa, setClock, handlePlaybackUpdate_eq, hs]

theorem sim_completionFire (cfg : Preset) (c : Card) (now : ℚ)
    (hs : c.sim.startTime.isSome = true) :
    (step cfg c (.completionFire now)).sim =
    (if c.completionArmed then
      { c.sim with status := .completed, endTime := some now, playbackPercent := 100 }
    else c.sim) := by
  rw [step_completionFire_eq]
  rw [withEffect_sim]
  · by_cases hca : c.completionArmed <;> simp [hca, setClock, completionAction_eq]
  · by_cases hca : c.completionArmed <;> simp [hca, setClock, completionAction_eq, hs]

theorem sim_chaosTick (cfg : Preset) (c : Card) (now draw : ℚ)
    (hs : c.sim.startTime.isSome = true) :
    (step cfg c (.chaosTick now draw)).sim = c.sim := by
  rw [step_chaosTick_eq]
  rw [withEffect_sim]
  · by_cases hca : c.chaosArmed <;> simp [hca, setClock, injectChaos]
  · by_cases hca : c.chaosArmed <;> simp [hca, setClock, injectChaos, hs]

theorem sim_beginPlayFire (cfg : Preset) (c : Card) (now : ℚ)
    (hs : c.sim.startTime.isSome = true) :
    (step cfg c (.beginPlayFire now)).sim = c.sim := by
  rw [step_beginPlayFire_eq]
  rw [withEffect_sim]
  · by_cases hba : c.beginPlayArmed <;> simp [hba, setClock]
  · by_cases hba : c.beginPlayArmed <;> simp [hba, setClock, hs]

/-! Trace machinery: the invariant holds along every wellformed run. -/

theorem effectCleanup_clock (prev : Status) (c : Card) :
    (effectCleanup prev c).clock = c.clock := by
  unfold effectCleanup
  split_ifs <;> rfl

theorem effectRun_clock (cfg : Preset) (now : ℚ) (c : Card) :
    (effectRun cfg now c).clock = c.clock := by
  unfold effectRun
  by_cases h1 : c.sim.status = .pending ∧ c.sim.startTime = none <;>
    simp only [h1, ite_true, ite_false, if_true, if_false,
      onUpdateSelf, applyUpdates, mergePatch] <;>
    split_ifs <;> rfl

theorem withEffect_clock (cfg : Preset) (now : ℚ) (prev : Status) (c : Card) :
    (withEffect cfg now prev c).clock = c.clock := by
  unfold withEffect
  split_ifs
  · rfl
  · rw [effectRun_clock, effectCleanup_clock]

theorem step_clock (cfg : Preset) (c : Card) (e : Event) :
    (step cfg c e).clock = eTime e := by
  cases e <;>
    simp only [step_mediaError_eq, step_playing_eq, step_waiting_eq, step_stalled_eq,
      step_canplay_eq, step_samplerTick_eq, step_completionFire_eq, step_chaosTick_eq,
      step_beginPlayFire_eq, withEffect_clock, setClock, eTime]

theorem runFrom_cons (cfg : Preset) (c : Card) (e : Event) (es : List Event) :
    runFrom cfg c (e :: es) = runFrom cfg (step cfg c e) es := rfl

theorem runFrom_snoc (cfg : Preset) (c : Card) (es : List Event) (e : Event) :
    runFrom cfg c (es ++ [e]) = step cfg (runFrom cfg c es) e := by
  unfold runFrom
  rw [List.foldl_append]
  rfl

theorem runCard_snoc (cfg : Preset) (t0 : ℚ) (sim : Sim) (es : List Event) (e : Event) :
    runCard cfg t0 sim (es ++ [e]) = step cfg (runCard cfg t0 sim es) e := by
  unfold runCard
  exact runFrom_snoc cfg _ es e

/-- The time of the last event in a trace (the clock value after it). -/
def lastT (t : ℚ) (es : List Event) : ℚ :=
  es.foldl (fun _ e => eTime e) t

theorem lastT_cons (t : ℚ) (e : Event) (es : List Event) :
    lastT t (e :: es) = lastT (eTime e) es := rfl

theorem runFrom_clock (cfg : Preset) (es : List Event) : ∀ (c : Card),
    (runFrom cfg c es).clock = lastT c.clock es := by
  induction es with
  | nil => intro c; rfl
  | cons e es ih =>
      intro c
      rw [runFrom_cons, lastT_cons, ih, step_clock]

theorem wfB_snoc (es : List Event) : ∀ (t : ℚ) (e : Event),
    wfB t (es ++ [e]) = true → wfB t es = true ∧ lastT t es ≤ eTime e := by
  induction es with
  | nil =>
      intro t e h
      rw [List.nil_append, wfB, wfB] at h
      simp only [Bool.and_eq_true, decide_eq_true_eq] at h
      exact ⟨rfl, h.1⟩
  | cons e' es ih =>
      intro t e h
      rw [List.cons_append, wfB, Bool.and_eq_true, decide_eq_true_eq] at h
      obtain ⟨hle, h⟩ := h
      obtain ⟨hwf, hlast⟩ := ih (eTime e') e h
      refine ⟨?_, by simpa [lastT_cons] using hlast⟩
      rw [wfB, Bool.and_eq_true, decide_eq_true_eq]
      exact ⟨hle, hwf⟩

theorem inv_runFrom (cfg : Preset) (es : List Event) : ∀ (c : Card),
    Inv c → wfB c.clock es = true → Inv (runFrom cfg c es) := by
  induction es with
  | nil => intro c hI _; exact hI
  | cons e es ih =>
      intro c hI hwf
      rw [wfB, Bool.and_eq_true, decide_eq_true_eq] at hwf
      obtain ⟨hle, hwf⟩ := hwf
      have hI' := inv_step cfg hI e hle
      rw [runFrom_cons]
      exact ih (step cfg c e) hI' (by rw [step_clock]; exact hwf)

theorem mountCard_clock (cfg : Preset) (t0 : ℚ) (i n u p : String) :
    (mountCard cfg t0 (initialSim i n u p)).clock = t0 := by
  rw [mountCard_initial]

theorem inv_runCard (cfg : Preset) (t0 : ℚ) (i n u p : String) (es : List Event)
    (h0 : 0 ≤ t0) (hwf : wfB t0 es = true) :
    Inv (runCard cfg t0 (initialSim i n u p) es) := by
  have hm := inv_mount cfg t0 h0 i n u p
  unfold runCard
  exact inv_runFrom cfg es _ hm (by rw [mountCard_clock]; exact hwf)

theorem runCard_clock (cfg : Preset) (t0 : ℚ) (i n u p : String) (es : List Event) :
    (runCard cfg t0 (initialSim i n u p) es).clock = lastT t0 es := by
  unfold runCard
  rw [runFrom_clock, mountCard_clock]

/-! Derived per-event facts about single fields. -/

theorem status_mediaError (cfg : Preset) (c : Card) (now : ℚ)
    (hs : c.sim.startTime.isSome = true) :
    (step cfg c (.mediaError now)).sim.status =
    (if c.sim.status = .running ∨ c.sim.status = .pending
     then .failed else c.sim.status) := by
  rw [sim_mediaError cfg c now hs]

theorem status_playing (cfg : Preset) (c : Card) (now : ℚ)
    (hs : c.sim.startTime.isSome = true) :
    (step cfg c (.playing now)).sim.status =
    (if c.ttffStart > 0 then .running else c.sim.status) := by
  rw [sim_playing cfg c now hs]
  by_cases htf : c.ttffStart > 0 <;>
    by_cases hrb : c.rebufferingTimer > 0 <;>
    simp [htf, hrb]

theorem status_completionFire (cfg : Preset) (c : Card) (now : ℚ)
    (hs : c.sim.startTime.isSome = true) :
    (step cfg c (.completionFire now)).sim.status =
    (if c.completionArmed then .completed else c.sim.status) := by
  rw [sim_completionFire cfg c now hs]
  by_cases hca : c.completionArmed <;> simp [hca]

theorem ttff_playing (cfg : Preset) (c : Card) (now : ℚ)
    (hs : c.sim.startTime.isSome = true) :
    (step cfg c (.playing now)).sim.ttff =
    (if c.ttffStart > 0 then some (toFixed2 (now - c.ttffStart)) else c.sim.ttff) := by
  rw [sim_playing cfg c now hs]
  by_cases htf : c.ttffStart > 0 <;>
    by_cases hrb : c.rebufferingTimer > 0 <;>
    simp [htf, hrb]

theorem rtime_playing (cfg : Preset) (c : Card) (now : ℚ)
    (hs : c.sim.startTime.isSome = true) :
    (step cfg c (.playing now)).sim.rebufferingTime =
    (if c.rebufferingTimer > 0 then
      c.sim.rebufferingTime + (now - c.rebufferingTimer) / 1000
     else c.sim.rebufferingTime) := by
  rw [sim_playing cfg c now hs]
  by_cases htf : c.ttffStart > 0 <;>
    by_cases hrb : c.rebufferingTimer > 0 <;>
    simp [htf, hrb]

theorem rtime_canplay (cfg : Preset) (c : Card) (now : ℚ)
    (hs : c.sim.startTime.isSome = true) :
    (step cfg c (.canplay now)).sim.rebufferingTime =
    (if c.rebufferingTimer > 0 then
      c.sim.rebufferingTime + (now - c.rebufferingTimer) / 1000
     else c.sim.rebufferingTime) := by
  rw [sim_canplay cfg c now hs]
  by_cases hrb : c.rebufferingTimer > 0 <;> simp [hrb]

theorem effectCleanup_timer (prev : Status) (c : Card) :
    (effectCleanup prev c).rebufferingTimer = c.rebufferingTimer := by
  unfold effectCleanup
  split_ifs <;> rfl

theorem effectRun_timer (cfg : Preset) (now : ℚ) (c : Card) :
    (effectRun cfg now c).rebufferingTimer = c.rebufferingTimer := by
  unfold effectRun
  by_cases h1 : c.sim.status = .pending ∧ c.sim.startTime = none <;>
    simp only [h1, ite_true, ite_false, if_true, if_false,
      onUpdateSelf, applyUpdates, mergePatch] <;>
    split_ifs <;> rfl

theorem withEffect_timer (cfg : Preset) (now : ℚ) (prev : Status) (c : Card) :
    (withEffect cfg now prev c).rebufferingTimer = c.rebufferingTimer := by
  unfold withEffect
  split_ifs
  · rfl
  · rw [effectRun_timer, effectCleanup_timer]

theorem timer_playing (cfg : Preset) (c : Card) (now : ℚ) :
    (step cfg c (.playing now)).rebufferingTimer =
    (if c.rebufferingTimer > 0 then 0 else c.rebufferingTimer) := by
  rw [step_playing_eq, handleInitialPlay_eq, handleRebufferingEnd_eq, withEffect_timer]
  by_cases htf : c.ttffStart > 0 <;>
    by_cases hrb : c.rebufferingTimer > 0 <;>
    simp [htf, hrb, setClock]

theorem timer_canplay (cfg : Preset) (c : Card) (now : ℚ) :
    (step cfg c (.canplay now)).rebufferingTimer =
    (if c.rebufferingTimer > 0 then 0 else c.rebufferingTimer) := by
  rw [step_canplay_eq, handleRebufferingEnd_eq, withEffect_timer]
  by_cases hrb : c.rebufferingTimer > 0 <;> simp [hrb, setClock]

/-- The forward edges of the status diagram pending → running →
{completed | failed}, reflexive steps included. -/
def forwardStep : Status → Status → Bool
  | .pending, .pending => true
  | .pending, .running => true
  | .pending, .failed => true
  | .running, .running => true
  | .running, .completed => true
  | .running, .failed => true
  | .completed, .completed => true
  | .failed, .failed => true
  | _, _ => false

theorem forwardStep_refl (s : Status) : forwardStep s s = true := by
  cases s <;> rfl

/-! Registry helper lemmas. -/

theorem handleUpdate_of_absent (sims : List Sim) (id : String) (u : Updates)
    (h : ∀ s ∈ sims, ¬s.id = id) : handleUpdateSimulation sims id u = sims := by
  unfold handleUpdateSimulation
  induction sims with
  | nil => rfl
  | cons s ss ih =>
      rw [List.map_cons, if_neg (h s (List.mem_cons_self s ss)),
        ih (fun x hx => h x (List.mem_cons_of_mem s hx))]

theorem handleRemove_of_absent (sims : List Sim) (id : String)
    (h : ∀ s ∈ sims, ¬s.id = id) : handleRemoveSimulation sims id = sims := by
  unfold handleRemoveSimulation
  rw [List.filter_eq_self]
  intro s hmem
  simpa using h s hmem

theorem mem_remove_id (sims : List Sim) (id : String) (s : Sim)
    (h : s ∈ handleRemoveSimulation sims id) : ¬s.id = id := by
  unfold handleRemoveSimulation at h
  have := (List.mem_filter.mp h).2
  simpa using this

/-! Whole-event summaries of each Sim field. -/

theorem status_step (cfg : Preset) (c : Card) (e : Event)
    (hs : c.sim.startTime.isSome = true) :
    (step cfg c e).sim.status =
    (match e with
     | .mediaError _ =>
        if c.sim.status = .running ∨ c.sim.status = .pending
        then .failed else c.sim.status
     | .playing _ => if c.ttffStart > 0 then .running else c.sim.status
     | .completionFire _ => if c.completionArmed then .completed else c.sim.status
     | _ => c.sim.status) := by
  cases e with
  | mediaError now => exact status_mediaError cfg c now hs
  | playing now => exact status_playing cfg c now hs
  | waiting now => rw [sim_waiting cfg c now hs]
  | stalled now => rw [sim_stalled cfg c now hs]
  | canplay now =>
      rw [sim_canplay cfg c now hs]
      by_cases hrb : c.rebufferingTimer > 0 <;> simp [hrb]
  | samplerTick now =>
      rw [sim_samplerTick cfg c now hs]
      by_cases hsa : c.samplerArmed <;> simp [hsa]
  | completionFire now => exact status_completionFire cfg c now hs
  | chaosTick now draw => rw [sim_chaosTick cfg c now draw hs]
  | beginPlayFire now => rw [sim_beginPlayFire cfg c now hs]

theorem errorCount_step (cfg : Preset) (c : Card) (e : Event)
    (hs : c.sim.startTime.isSome = true) :
    (step cfg c e).sim.errorCount =
    (match e with
     | .mediaError _ => c.sim.errorCount + 1
     | _ => c.sim.errorCount) := by
  cases e with
  | mediaError now => rw [sim_mediaError cfg c now hs]
  | playing now =>
      rw [sim_playing cfg c now hs]
      by_cases htf : c.ttffStart > 0 <;>
        by_cases hrb : c.rebufferingTimer > 0 <;> simp [htf, hrb]
  | waiting now => rw [sim_waiting cfg c now hs]
  | stalled now => rw [sim_stalled cfg c now hs]
  | canplay now =>
      rw [sim_canplay cfg c now hs]
      by_cases hrb : c.rebufferingTimer > 0 <;> simp [hrb]
  | samplerTick now =>
      rw [sim_samplerTick cfg c now hs]
      by_cases hsa : c.samplerArmed <;> simp [hsa]
  | completionFire now =>
      rw [sim_completionFire cfg c now hs]
      by_cases hca : c.completionArmed <;> simp [hca]
  | chaosTick now draw => rw [sim_chaosTick cfg c now draw hs]
  | beginPlayFire now => rw [sim_beginPlayFire cfg c now hs]

theorem ttff_step (cfg : Preset) (c : Card) (e : Event)
    (hs : c.sim.startTime.isSome = true) :
    (step cfg c e).sim.ttff =
    (match e with
     | .playing now =>
        if c.ttffStart > 0 then some (toFixed2 (now - c.ttffStart)) else c.sim.ttff
     | _ => c.sim.ttff) := by
  cases e with
  | mediaError now => rw [sim_mediaError cfg c now hs]
  | playing now => exact ttff_playing cfg c now hs
  | waiting now => rw [sim_waiting cfg c now hs]
  | stalled now => rw [sim_stalled cfg c now hs]
  | canplay now =>
      rw [sim_canplay cfg c now hs]
      by_cases hrb : c.rebufferingTimer > 0 <;> simp [hrb]
  | samplerTick now =>
      rw [sim_samplerTick cfg c now hs]
      by_cases hsa : c.samplerArmed <;> simp [hsa]
  | completionFire now =>
      rw [sim_completionFire cfg c now hs]
      by_cases hca : c.completionArmed <;> simp [hca]
  | chaosTick now draw => rw [sim_chaosTick cfg c now draw hs]
  | beginPlayFire now => rw [sim_beginPlayFire cfg c now hs]

theorem rtime_step (cfg : Preset) (c : Card) (e : Event)
    (hs : c.sim.startTime.isSome = true) :
    (step cfg c e).sim.rebufferingTime =
    (match e with
     | .playing now =>
        if c.rebufferingTimer > 0 then
          c.sim.rebufferingTime + (now - c.rebufferingTimer) / 1000
        else c.sim.rebufferingTime
     | .canplay now =>
        if c.rebufferingTimer > 0 then
          c.sim.rebufferingTime + (now - c.rebufferingTimer) / 1000
        else c.sim.rebufferingTime
     | _ => c.sim.rebufferingTime) := by
  cases e with
  | mediaError now => rw [sim_mediaError cfg c now hs]
  | playing now => exact rtime_playing cfg c now hs
  | waiting now => rw [sim_waiting cfg c now hs]
  | stalled now => rw [sim_stalled cfg c now hs]
  | canplay now => exact rtime_canplay cfg c now hs
  | samplerTick now =>
      rw [sim_samplerTick cfg c now hs]
      by_cases hsa : c.samplerArmed <;> simp [hsa]
  | completionFire now =>
      rw [sim_completionFire cfg c now hs]
      by_cases hca : c.completionArmed <;> simp [hca]
  | chaosTick now draw => rw [sim_chaosTick cfg c now draw hs]
  | beginPlayFire now => rw [sim_beginPlayFire cfg c now hs]

theorem percent_step (cfg : Preset) (c : Card) (e : Event)
    (hs : c.sim.startTime.isSome = true) :
    (step cfg c e).sim.playbackPercent =
    (match e with
     | .samplerTick now =>
        if c.samplerArmed then pAt (startT c) now else c.sim.playbackPercent
     | .completionFire _ =>
        if c.completionArmed then 100 else c.sim.playbackPercent
     | _ => c.sim.playbackPercent) := by
  cases e with
  | mediaError now => rw [sim_mediaError cfg c now hs]
  | playing now =>
      rw [sim_playing cfg c now hs]
      by_cases htf : c.ttffStart > 0 <;>
        by_cases hrb : c.rebufferingTimer > 0 <;> simp [htf, hrb]
  | waiting now => rw [sim_waiting cfg c now hs]
  | stalled now => rw [sim_stalled cfg c now hs]
  | canplay now =>
      rw [sim_canplay cfg c now hs]
      by_cases hrb : c.rebufferingTimer > 0 <;> simp [hrb]
  | samplerTick now =>
      rw [sim_samplerTick cfg c now hs]
      by_cases hsa : c.samplerArmed <;> simp [hsa]
  | completionFire now =>
      rw [sim_completionFire cfg c now hs]
      by_cases hca : c.completionArmed <;> simp [hca]
  | chaosTick now draw => rw [sim_chaosTick cfg c now draw hs]
  | beginPlayFire now => rw [sim_beginPlayFire cfg c now hs]

/-! Fields left unchanged by particular events. -/

theorem status_unch_waiting (cfg : Preset) (c : Card) (now : ℚ)
    (hs : c.sim.startTime.isSome = true) :
    (step cfg c (.waiting now)).sim.status = c.sim.status := by
  rw [sim_waiting cfg c now hs]

theorem status_unch_stalled (cfg : Preset) (c : Card) (now : ℚ)
    (hs : c.sim.startTime.isSome = true) :
    (step cfg c (.stalled now)).sim.status = c.sim.status := by
  rw [sim_stalled cfg c now hs]

theorem status_unch_canplay (cfg : Preset) (c : Card) (now : ℚ)
    (hs : c.sim.startTime.isSome = true) :
    (step cfg c (.canplay now)).sim.status = c.sim.status := by
  rw [sim_canplay cfg c now hs]
  by_cases hrb : c.rebufferingTimer > 0 <;> simp [hrb]

theorem status_unch_samplerTick (cfg : Preset) (c : Card) (now : ℚ)
    (hs : c.sim.startTime.isSome = true) :
    (step cfg c (.samplerTick now)).sim.status = c.sim.status := by
  rw [sim_samplerTick cfg c now hs]
  by_cases hsa : c.samplerArmed <;> simp [hsa]

theorem status_unch_chaosTick (cfg : Preset) (c : Card) (now : ℚ) (draw : ℚ)
    (hs : c.sim.startTime.isSome = true) :
    (step cfg c (.chaosTick now draw)).sim.status = c.sim.status := by
  rw [sim_chaosTick cfg c now draw hs]

theorem status_unch_beginPlayFire (cfg : Preset) (c : Card) (now : ℚ)
    (hs : c.sim.startTime.isSome = true) :
    (step cfg c (.beginPlayFire now)).sim.status = c.sim.status := by
  rw [sim_beginPlayFire cfg c now hs]

theorem pct_unch_mediaError (cfg : Preset) (c : Card) (now : ℚ)
    (hs : c.sim.startTime.isSome = true) :
    (step cfg c (.mediaError now)).sim.playbackPercent = c.sim.playbackPercent := by
  rw [sim_mediaError cfg c now hs]

theorem pct_unch_playing (cfg : Preset) (c : Card) (now : ℚ)
    (hs : c.sim.startTime.isSome = true) :
    (step cfg c (.playing now)).sim.playbackPercent = c.sim.playbackPercent := by
  rw [sim_playing cfg c now hs]
  by_cases htf : c.ttffStart > 0 <;> by_cases hrb : c.rebufferingTimer > 0 <;> simp [htf, hrb]

theorem pct_unch_waiting (cfg : Preset) (c : Card) (now : ℚ)
    (hs : c.sim.startTime.isSome = true) :
    (step cfg c (.waiting now)).sim.playbackPercent = c.sim.playbackPercent := by
  rw [sim_waiting cfg c now hs]

theorem pct_unch_stalled (cfg : Preset) (c : Card) (now : ℚ)
    (hs : c.sim.startTime.isSome = true) :
    (step cfg c (.stalled now)).sim.playbackPercent = c.sim.playbackPercent := by
  rw [sim_stalled cfg c now hs]

theorem pct_unch_canplay (cfg : Preset) (c : Card) (now : ℚ)
    (hs : c.sim.startTime.isSome = true) :
    (step cfg c (.canplay now)).sim.playbackPercent = c.sim.playbackPercent := by
  rw [sim_canplay cfg c now hs]
  by_cases hrb : c.rebufferingTimer > 0 <;> simp [hrb]

theorem pct_unch_chaosTick (cfg : Preset) (c : Card) (now : ℚ) (draw : ℚ)
    (hs : c.sim.startTime.isSome = true) :
    (step cfg c (.chaosTick now draw)).sim.playbackPercent = c.sim.playbackPercent := by
  rw [sim_chaosTick cfg c now draw hs]

theorem pct_unch_beginPlayFire (cfg : Preset) (c : Card) (now : ℚ)
    (hs : c.sim.startTime.isSome = true) :
    (step cfg c (.beginPlayFire now)).sim.playbackPercent = c.sim.playbackPercent := by
  rw [sim_beginPlayFire cfg c now hs]

theorem ttff_unch_mediaError (cfg : Preset) (c : Card) (now : ℚ)
    (hs : c.sim.startTime.isSome = true) :
    (step cfg c (.mediaError now)).sim.ttff = c.sim.ttff := by
  rw [sim_mediaError cfg c now hs]

theorem ttff_unch_waiting (cfg : Preset) (c : Card) (now : ℚ)
    (hs : c.sim.startTime.isSome = true) :
    (step cfg c (.waiting now)).sim.ttff = c.sim.ttff := by
  rw [sim_waiting cfg c now hs]

theorem ttff_unch_stalled (cfg : Preset) (c : Card) (now : ℚ)
    (hs : c.sim.startTime.isSome = true) :
    (step cfg c (.stalled now)).sim.ttff = c.sim.ttff := by
  rw [sim_stalled cfg c now hs]

theorem ttff_unch_canplay (cfg : Preset) (c : Card) (now : ℚ)
    (hs : c.sim.startTime.isSome = true) :
    (step cfg c (.canplay now)).sim.ttff = c.sim.ttff := by
  rw [sim_canplay cfg c now hs]
  by_cases hrb : c.rebufferingTimer > 0 <;> simp [hrb]

theorem ttff_unch_samplerTick (cfg : Preset) (c : Card) (now : ℚ)
    (hs : c.sim.startTime.isSome = true) :
    (step cfg c (.samplerTick now)).sim.ttff = c.sim.ttff := by
  rw [sim_samplerTick cfg c now hs]
  by_cases hsa : c.samplerArmed <;> simp [hsa]

theorem ttff_unch_completionFire (cfg : Preset) (c : Card) (now : ℚ)
    (hs : c.sim.startTime.isSome = true) :
    (step cfg c (.completionFire now)).sim.ttff = c.sim.ttff := by
  rw [sim_completionFire cfg c now hs]
  by_cases hca : c.completionArmed <;> simp [hca]

theorem ttff_unch_chaosTick (cfg : Preset) (c : Card) (now : ℚ) (draw : ℚ)
    (hs : c.sim.startTime.isSome = true) :
    (step cfg c (.chaosTick now draw)).sim.ttff = c.sim.ttff := by
  rw [sim_chaosTick cfg c now draw hs]

theorem ttff_unch_beginPlayFire (cfg : Preset) (c : Card) (now : ℚ)
    (hs : c.sim.startTime.isSome = true) :
    (step cfg c (.beginPlayFire now)).sim.ttff = c.sim.ttff := by
  rw [sim_beginPlayFire cfg c now hs]

theorem rtime_unch_mediaError (cfg : Preset) (c : Card) (now : ℚ)
    (hs : c.sim.startTime.isSome = true) :
    (step cfg c (.mediaError now)).sim.rebufferingTime = c.sim.rebufferingTime := by
  rw [sim_mediaError cfg c now hs]

theorem rtime_unch_waiting (cfg : Preset) (c : Card) (now : ℚ)
    (hs : c.sim.startTime.isSome = true) :
    (step cfg c (.waiting now)).sim.rebufferingTime = c.sim.rebufferingTime := by
  rw [sim_waiting cfg c now hs]

theorem rtime_unch_stalled (cfg : Preset) (c : Card) (now : ℚ)
    (hs : c.sim.startTime.isSome = true) :
    (step cfg c (.stalled now)).sim.rebufferingTime = c.sim.rebufferingTime := by
  rw [sim_stalled cfg c now hs]

theorem rtime_unch_samplerTick (cfg : Preset) (c : Card) (now : ℚ)
    (hs : c.sim.startTime.isSome = true) :
    (step cfg c (.samplerTick now)).sim.rebufferingTime = c.sim.rebufferingTime := by
  rw [sim_samplerTick cfg c now hs]
  by_cases hsa : c.samplerArmed <;> simp [hsa]

theorem rtime_unch_completionFire (cfg : Preset) (c : Card) (now : ℚ)
    (hs : c.sim.startTime.isSome = true) :
    (step cfg c (.completionFire now)).sim.rebufferingTime = c.sim.rebufferingTime := by
  rw [sim_completionFire cfg c now hs]
  by_cases hca : c.completionArmed <;> simp [hca]

theorem rtime_unch_chaosTick (cfg : Preset) (c : Card) (now : ℚ) (draw : ℚ)
    (hs : c.sim.startTime.isSome = true) :
    (step cfg c (.chaosTick now draw)).sim.rebufferingTime = c.sim.rebufferingTime := by
  rw [sim_chaosTick cfg c now draw hs]

theorem rtime_unch_beginPlayFire (cfg : Preset) (c : Card) (now : ℚ)
    (hs : c.sim.startTime.isSome = true) :
    (step cfg c (.beginPlayFire now)).sim.rebufferingTime = c.sim.rebufferingTime := by
  rw [sim_beginPlayFire cfg c now hs]

/-! The claims. -/

/-- Claim C7: every media-capability error signal increments the fault
count by exactly one, the fault count never decreases across any event,
and an increment that occurs while the run is pending or running sets the
status to failed. -/
theorem C7_faultCount (cfg : Preset) (t0 : ℚ) (i n u p : String)
    (es : List Event) (e : Event) (h0 : 0 ≤ t0)
    (hwf : wfB t0 (es ++ [e]) = true) (c c' : Card)
    (hc : c = runCard cfg t0 (initialSim i n u p) es)
    (hc' : c' = runCard cfg t0 (initialSim i n u p) (es ++ [e])) :
    c.sim.errorCount ≤ c'.sim.errorCount
    ∧ (e = .mediaError (eTime e) → c'.sim.errorCount = c.sim.errorCount + 1)
    ∧ (c.sim.errorCount < c'.sim.errorCount →
        (e = .mediaError (eTime e)
          ∧ ((c.sim.status = .pending ∨ c.sim.status = .running) →
              c'.sim.status = .failed))) := by
  have hp := wfB_snoc es t0 e hwf
  have hI := inv_runCard cfg t0 i n u p es h0 hp.1
  have hs := hI.start_some
  subst hc hc'
  rw [runCard_snoc]
  refine ⟨?_, ?_, ?_⟩
  · rw [errorCount_step cfg _ e hs]
    cases e <;> simp
  · intro he
    rw [errorCount_step cfg _ e hs]
    cases e <;> simp_all [eTime]
  · intro hlt
    rw [errorCount_step cfg _ e hs] at hlt
    cases e <;> simp_all [eTime]
    intro hnt
    rw [status_step cfg _ _ hs]
    rcases hnt with h | h <;> simp [h]

/-- Claim C8: updating or removing an identity that is absent from the
registry is a silent no-op: the list of runs is unchanged (and, the
operations being total functions, no error is raised). -/
theorem C8_absentId (sims : List Sim) (id : String) (u : Updates)
    (habs : ∀ s ∈ sims, ¬s.id = id) :
    handleUpdateSimulation sims id u = sims
    ∧ handleRemoveSimulation sims id = sims :=
  ⟨handleUpdate_of_absent sims id u habs, handleRemove_of_absent sims id habs⟩

/-- Claim C9: the partition into minimized (pinned) and active (detailed)
views returns exactly the runs with the visibility flag set and its
complement, each as an order-preserving sublist of the registry, and
together they are a permutation of the registry. -/
theorem C9_partition (sims : List Sim) :
    (∀ s, s ∈ minimizedSimulations sims ↔ s ∈ sims ∧ s.isMinimized = true)
    ∧ (∀ s, s ∈ activeSimulations sims ↔ s ∈ sims ∧ s.isMinimized = false)
    ∧ (minimizedSimulations sims).Sublist sims
    ∧ (activeSimulations sims).Sublist sims
    ∧ (minimizedSimulations sims ++ activeSimulations sims).Perm sims := by
  refine ⟨?_, ?_, ?_, ?_, ?_⟩
  · intro s
    simp [minimizedSimulations, List.mem_filter]
  · intro s
    simp [activeSimulations, List.mem_filter]
  · exact List.filter_sublist sims
  · exact List.filter_sublist sims
  · exact List.filter_append_perm (fun s => s.isMinimized) sims

/-- Claim C10: the unguarded PRESETS lookup used by the lifecycle
controller and the chaos injector yields a configuration record exactly
for the four defined preset keys, and no record for any other key. -/
theorem C10_presetDomain (sim : Sim) :
    ((config sim).isSome = true ↔
      (sim.preset = "baseline" ∨ sim.preset = "latency" ∨
       sim.preset = "404" ∨ sim.preset = "spikey"))
    ∧ (¬(sim.preset = "baseline" ∨ sim.preset = "latency" ∨
         sim.preset = "404" ∨ sim.preset = "spikey") →
        config sim = none) := by
  unfold config PRESETS
  constructor
  · split_ifs <;> simp_all
  · intro h
    split_ifs <;> simp_all

/-- Claim C3 (code bug evaluation): start a run with the 404 preset, let
it reach running (chaos interval armed), then fail it with a media error;
the chaos interval survives the failure, and a later chaos tick still
performs a random draw while the status is failed — the effect cleanup of
the running branch clears only the completion timeout. -/
theorem C3_drawWhileFailed :
    (runCard notFoundPreset 100 (initialSim "r1" "NET TEST" "u" "404")
        [.playing 200, .mediaError 300]).sim.status = .failed
    ∧ (runCard notFoundPreset 100 (initialSim "r1" "NET TEST" "u" "404")
        [.playing 200, .mediaError 300]).chaosArmed = true
    ∧ (runCard notFoundPreset 100 (initialSim "r1" "NET TEST" "u" "404")
        [.playing 200, .mediaError 300, .chaosTick 3300 0]).draws =
      (runCard notFoundPreset 100 (initialSim "r1" "NET TEST" "u" "404")
        [.playing 200, .mediaError 300]).draws + 1
    ∧ wfB 100 [.playing 200, .mediaError 300, .chaosTick 3300 0] = true := by
  refine ⟨by decide, by decide, by decide, by decide⟩

/-- Claim C4 (code bug evaluation): removing a run while it is running
leaves the sampler and chaos intervals armed (the running-branch cleanup
clears only the completion timeout) and the begin-playback timeout is
never cancelled; yet no mutation to the removed run is observable through
the registry, because updates addressed to an absent identity are
no-ops. -/
theorem C4_removeLeavesTimers :
    ((runCard notFoundPreset 10 (initialSim "r2" "T2" "u" "404")
        [.playing 20]).sim.status = .running
      ∧ (unmountCleanup (runCard notFoundPreset 10 (initialSim "r2" "T2" "u" "404")
          [.playing 20])).samplerArmed = true
      ∧ (unmountCleanup (runCard notFoundPreset 10 (initialSim "r2" "T2" "u" "404")
          [.playing 20])).chaosArmed = true
      ∧ wfB 10 [.playing 20] = true)
    ∧ (∀ (sims : List Sim) (id : String) (u : Updates),
        handleUpdateSimulation (handleRemoveSimulation sims id) id u =
          handleRemoveSimulation sims id) := by
  refine ⟨⟨by decide, by decide, by decide, by decide⟩, ?_⟩
  intro sims id u
  exact handleUpdate_of_absent _ id u (fun s hsm => mem_remove_id sims id s hsm)

/-- Claim C1 counterexample: the status of a run can move backward from
failed to running.  With the baseline preset, mount at t=100 (pending), a
media error at t=200 makes the run failed, and a later playing event at
t=300 — the first-frame ref is still armed — sets the status back to
running, on a wellformed event sequence. -/
theorem C1_counterexample :
    (runCard baselinePreset 100 (initialSim "c1" "CHECK" "u" "baseline")
        [.mediaError 200]).sim.status = .failed
    ∧ (runCard baselinePreset 100 (initialSim "c1" "CHECK" "u" "baseline")
        [.mediaError 200, .playing 300]).sim.status = .running
    ∧ wfB 100 [.mediaError 200, .playing 300] = true := by
  refine ⟨by decide, by decide, by decide⟩

/-- Claim C1 (amended): across every event of a wellformed run the status
moves forward along pending → running → {completed | failed}, with one
exception: a playing event arriving while the first-frame ref is still
armed moves a failed run back to running.  completed is terminal, and the
deferred completion action never fires on a failed run (it is armed only
while running), so it never overrides failed with completed. -/
theorem C1_statusForward (cfg : Preset) (t0 : ℚ) (i n u p : String)
    (es : List Event) (e : Event) (h0 : 0 ≤ t0)
    (hwf : wfB t0 (es ++ [e]) = true) (c c' : Card)
    (hc : c = runCard cfg t0 (initialSim i n u p) es)
    (hc' : c' = runCard cfg t0 (initialSim i n u p) (es ++ [e])) :
    (forwardStep c.sim.status c'.sim.status = true ∨
      (c.sim.status = .failed ∧ c'.sim.status = .running ∧ 0 < c.ttffStart ∧
        e = .playing (eTime e)))
    ∧ (c.sim.status = .completed → c'.sim.status = .completed)
    ∧ (c.sim.status = .failed →
        ∀ t, (step cfg c (.completionFire t)).sim.status = .failed) := by
  have hp := wfB_snoc es t0 e hwf
  have hI : Inv c := by
    rw [hc]
    exact inv_runCard cfg t0 i n u p es h0 hp.1
  have hs := hI.start_some
  have hstep : c' = step cfg c e := by
    rw [hc', hc]
    exact runCard_snoc cfg t0 _ es e
  subst hstep
  refine ⟨?_, ?_, ?_⟩
  · cases e with
    | mediaError now =>
        rw [status_mediaError cfg c now hs]
        left
        by_cases hnt : c.sim.status = .running ∨ c.sim.status = .pending
        · rw [if_pos hnt]
          rcases hnt with h | h <;> rw [h] <;> rfl
        · rw [if_neg hnt]
          exact forwardStep_refl _
    | playing now =>
        rw [status_playing cfg c now hs]
        by_cases htf : c.ttffStart > 0
        · rw [if_pos htf]
          cases hst : c.sim.status with
          | pending => exact Or.inl rfl
          | running =>
              have h00 := hI.ttff_cleared (Or.inl hst)
              linarith
          | completed =>
              have h00 := hI.ttff_cleared (Or.inr hst)
              linarith
          | failed => exact Or.inr ⟨rfl, rfl, htf, rfl⟩
        · rw [if_neg htf]
          exact Or.inl (forwardStep_refl _)
    | waiting now =>
        rw [status_unch_waiting cfg c now hs]
        exact Or.inl (forwardStep_refl _)
    | stalled now =>
        rw [status_unch_stalled cfg c now hs]
        exact Or.inl (forwardStep_refl _)
    | canplay now =>
        rw [status_unch_canplay cfg c now hs]
        exact Or.inl (forwardStep_refl _)
    | samplerTick now =>
        rw [status_unch_samplerTick cfg c now hs]
        exact Or.inl (forwardStep_refl _)
    | completionFire now =>
        rw [status_completionFire cfg c now hs]
        left
        by_cases hca : c.completionArmed
        · rw [if_pos hca, hI.comp_running hca]
          rfl
        · rw [if_neg hca]
          exact forwardStep_refl _
    | chaosTick now draw =>
        rw [status_unch_chaosTick cfg c now draw hs]
        exact Or.inl (forwardStep_refl _)
    | beginPlayFire now =>
        rw [status_unch_beginPlayFire cfg c now hs]
        exact Or.inl (forwardStep_refl _)
  · intro hcc
    cases e with
    | mediaError now =>
        rw [status_mediaError cfg c now hs]
        have hnt : ¬(c.sim.status = .running ∨ c.sim.status = .pending) := by
          rw [hcc]
          rintro (h | h) <;> exact Status.noConfusion h
        rw [if_neg hnt]
        exact hcc
    | playing now =>
        rw [status_playing cfg c now hs]
        have h00 := hI.ttff_cleared (Or.inr hcc)
        rw [if_neg (by rw [h00]; exact lt_irrefl 0)]
        exact hcc
    | waiting now => rw [status_unch_waiting cfg c now hs]; exact hcc
    | stalled now => rw [status_unch_stalled cfg c now hs]; exact hcc
    | canplay now => rw [status_unch_canplay cfg c now hs]; exact hcc
    | samplerTick now => rw [status_unch_samplerTick cfg c now hs]; exact hcc
    | completionFire now =>
        rw [status_completionFire cfg c now hs]
        by_cases hca : c.completionArmed
        · have hrun := hI.comp_running hca
          rw [hcc] at hrun
          exact Status.noConfusion hrun
        · rw [if_neg hca]
          exact hcc
    | chaosTick now draw => rw [status_unch_chaosTick cfg c now draw hs]; exact hcc
    | beginPlayFire now => rw [status_unch_beginPlayFire cfg c now hs]; exact hcc
  · intro hf t
    rw [status_completionFire cfg c t hs]
    by_cases hca : c.completionArmed
    · have hrun := hI.comp_running hca
      rw [hf] at hrun
      exact Status.noConfusion hrun
    · rw [if_neg hca]
      exact hf

/-- Claim C2: the sampler recomputes playbackPercent as the clamped
elapsed fraction min(100, elapsed / total * 100) rounded to one decimal
(parseFloat(toFixed(1))); across any event of a wellformed run the stored
percentage never decreases, always lies in [0, 100], and equals exactly
100 whenever the run is completed. -/
theorem C2_playbackPercent (cfg : Preset) (t0 : ℚ) (i n u p : String)
    (es : List Event) (e : Event) (h0 : 0 ≤ t0)
    (hwf : wfB t0 (es ++ [e]) = true) (c c' : Card)
    (hc : c = runCard cfg t0 (initialSim i n u p) es)
    (hc' : c' = runCard cfg t0 (initialSim i n u p) (es ++ [e])) :
    (∀ t, c.samplerArmed = true →
        (step cfg c (.samplerTick t)).sim.playbackPercent =
          toFixed1 (min 100 ((t - startT c) / (TEST_DURATION_SECONDS * 1000) * 100)))
    ∧ c.sim.playbackPercent ≤ c'.sim.playbackPercent
    ∧ 0 ≤ c'.sim.playbackPercent ∧ c'.sim.playbackPercent ≤ 100
    ∧ (c'.sim.status = .completed → c'.sim.playbackPercent = 100) := by
  have hp := wfB_snoc es t0 e hwf
  have hI : Inv c := by
    rw [hc]
    exact inv_runCard cfg t0 i n u p es h0 hp.1
  have hI' : Inv c' := by
    rw [hc']
    exact inv_runCard cfg t0 i n u p (es ++ [e]) h0 hwf
  have hs := hI.start_some
  have hle : c.clock ≤ eTime e := by
    rw [hc, runCard_clock]
    exact hp.2
  have hstep : c' = step cfg c e := by
    rw [hc', hc]
    exact runCard_snoc cfg t0 _ es e
  refine ⟨?_, ?_, hI'.pct_nonneg, hI'.pct_le, hI'.completed_pct⟩
  · intro t hsa
    rw [percent_step cfg c (.samplerTick t) hs]
    simp only [hsa, ite_true, if_true]
    rfl
  · rw [hstep]
    cases e with
    | mediaError now => rw [pct_unch_mediaError cfg c now hs]
    | playing now => rw [pct_unch_playing cfg c now hs]
    | waiting now => rw [pct_unch_waiting cfg c now hs]
    | stalled now => rw [pct_unch_stalled cfg c now hs]
    | canplay now => rw [pct_unch_canplay cfg c now hs]
    | samplerTick now =>
        by_cases hsa : c.samplerArmed
        · have hpct : (step cfg c (.samplerTick now)).sim.playbackPercent =
              pAt (startT c) now := by
            rw [sim_samplerTick cfg c now hs, if_pos hsa]
          rw [hpct]
          have hne : ¬c.sim.status = .completed := by
            intro hcc
            have hf := hI.completed_sampler hcc
            rw [hf] at hsa
            exact Bool.noConfusion hsa
          refine le_trans (hI.pct_bound hne) (pAt_mono _ ?_)
          simpa [eTime] using hle
        · have hpct : (step cfg c (.samplerTick now)).sim.playbackPercent =
              c.sim.playbackPercent := by
            rw [sim_samplerTick cfg c now hs, if_neg hsa]
          rw [hpct]
    | completionFire now =>
        by_cases hca : c.completionArmed
        · have hpct : (step cfg c (.completionFire now)).sim.playbackPercent =
              100 := by
            rw [sim_completionFire cfg c now hs, if_pos hca]
          rw [hpct]
          exact hI.pct_le
        · have hpct : (step cfg c (.completionFire now)).sim.playbackPercent =
              c.sim.playbackPercent := by
            rw [sim_completionFire cfg c now hs, if_neg hca]
          rw [hpct]
    | chaosTick now draw => rw [pct_unch_chaosTick cfg c now draw hs]
    | beginPlayFire now => rw [pct_unch_beginPlayFire cfg c now hs]

/-- Claim C5 counterexample: ttff can be recorded while the run
transitions out of failed, not out of pending.  With the latency preset,
a media error during pending makes the run failed with ttff still unset;
a later playing event records ttff on the failed → running transition. -/
theorem C5_counterexample :
    (runCard latencyPreset 50 (initialSim "c5" "LAT" "u" "latency")
        [.mediaError 60]).sim.status = .failed
    ∧ (runCard latencyPreset 50 (initialSim "c5" "LAT" "u" "latency")
        [.mediaError 60]).sim.ttff = none
    ∧ (runCard latencyPreset 50 (initialSim "c5" "LAT" "u" "latency")
        [.mediaError 60, .playing 70]).sim.ttff.isSome = true
    ∧ (runCard latencyPreset 50 (initialSim "c5" "LAT" "u" "latency")
        [.mediaError 60, .playing 70]).sim.status = .running
    ∧ wfB 50 [.mediaError 60, .playing 70] = true := by
  refine ⟨by decide, by decide, by decide, by decide, by decide⟩

/-- Claim C5 (amended): ttff is set at most once — once some it never
changes — and the only step that sets it is a playing event with the
first-frame ref still armed, which moves the run into running from
pending or (when the run failed while still pending) from failed. -/
theorem C5_ttffOnce (cfg : Preset) (t0 : ℚ) (i n u p : String)
    (es : List Event) (e : Event) (h0 : 0 ≤ t0)
    (hwf : wfB t0 (es ++ [e]) = true) (c c' : Card)
    (hc : c = runCard cfg t0 (initialSim i n u p) es)
    (hc' : c' = runCard cfg t0 (initialSim i n u p) (es ++ [e])) :
    (∀ v, c.sim.ttff = some v → c'.sim.ttff = some v)
    ∧ (c.sim.ttff = none → ¬c'.sim.ttff = none →
        (e = .playing (eTime e) ∧ 0 < c.ttffStart
          ∧ (c.sim.status = .pending ∨ c.sim.status = .failed)
          ∧ c'.sim.status = .running)) := by
  have hp := wfB_snoc es t0 e hwf
  have hI : Inv c := by
    rw [hc]
    exact inv_runCard cfg t0 i n u p es h0 hp.1
  have hs := hI.start_some
  have hstep : c' = step cfg c e := by
    rw [hc', hc]
    exact runCard_snoc cfg t0 _ es e
  subst hstep
  refine ⟨?_, ?_⟩
  · intro v hv
    cases e with
    | playing now =>
        rw [ttff_playing cfg c now hs]
        have h00 : c.ttffStart = 0 := hI.ttff_set_cleared (by rw [hv]; rfl)
        rw [if_neg (by rw [h00]; exact lt_irrefl 0)]
        exact hv
    | mediaError now => rw [ttff_unch_mediaError cfg c now hs]; exact hv
    | waiting now => rw [ttff_unch_waiting cfg c now hs]; exact hv
    | stalled now => rw [ttff_unch_stalled cfg c now hs]; exact hv
    | canplay now => rw [ttff_unch_canplay cfg c now hs]; exact hv
    | samplerTick now => rw [ttff_unch_samplerTick cfg c now hs]; exact hv
    | completionFire now => rw [ttff_unch_completionFire cfg c now hs]; exact hv
    | chaosTick now draw => rw [ttff_unch_chaosTick cfg c now draw hs]; exact hv
    | beginPlayFire now => rw [ttff_unch_beginPlayFire cfg c now hs]; exact hv
  · intro hnone hne
    cases e with
    | playing now =>
        rw [ttff_playing cfg c now hs] at hne
        by_cases htf : c.ttffStart > 0
        · refine ⟨rfl, htf, ?_, ?_⟩
          · cases hst : c.sim.status with
            | pending => exact Or.inl rfl
            | running =>
                have h00 := hI.ttff_cleared (Or.inl hst)
                linarith
            | completed =>
                have h00 := hI.ttff_cleared (Or.inr hst)
                linarith
            | failed => exact Or.inr rfl
          · rw [status_playing cfg c now hs, if_pos htf]
        · rw [if_neg htf] at hne
          exact absurd hnone hne
    | mediaError now =>
        rw [ttff_unch_mediaError cfg c now hs] at hne
        exact absurd hnone hne
    | waiting now =>
        rw [ttff_unch_waiting cfg c now hs] at hne
        exact absurd hnone hne
    | stalled now =>
        rw [ttff_unch_stalled cfg c now hs] at hne
        exact absurd hnone hne
    | canplay now =>
        rw [ttff_unch_canplay cfg c now hs] at hne
        exact absurd hnone hne
    | samplerTick now =>
        rw [ttff_unch_samplerTick cfg c now hs] at hne
        exact absurd hnone hne
    | completionFire now =>
        rw [ttff_unch_completionFire cfg c now hs] at hne
        exact absurd hnone hne
    | chaosTick now draw =>
        rw [ttff_unch_chaosTick cfg c now draw hs] at hne
        exact absurd hnone hne
    | beginPlayFire now =>
        rw [ttff_unch_beginPlayFire cfg c now hs] at hne
        exact absurd hnone hne

/-- Claim C6: cumulative rebuffer time never decreases across any event
of a wellformed run; it changes only on a close of an open rebuffer
interval (a canplay or playing event delivered with the rebuffer ref
open, which also closes the ref); a rebuffer-end with no open interval
leaves the cumulative time unchanged. -/
theorem C6_rebufferTime (cfg : Preset) (t0 : ℚ) (i n u p : String)
    (es : List Event) (e : Event) (h0 : 0 ≤ t0)
    (hwf : wfB t0 (es ++ [e]) = true) (c c' : Card)
    (hc : c = runCard cfg t0 (initialSim i n u p) es)
    (hc' : c' = runCard cfg t0 (initialSim i n u p) (es ++ [e])) :
    c.sim.rebufferingTime ≤ c'.sim.rebufferingTime
    ∧ (¬c'.sim.rebufferingTime = c.sim.rebufferingTime →
        (0 < c.rebufferingTimer ∧ c'.rebufferingTimer = 0
          ∧ (e = .canplay (eTime e) ∨ e = .playing (eTime e))))
    ∧ (∀ t, c.rebufferingTimer = 0 →
        (step cfg c (.canplay t)).sim.rebufferingTime = c.sim.rebufferingTime) := by
  have hp := wfB_snoc es t0 e hwf
  have hI : Inv c := by
    rw [hc]
    exact inv_runCard cfg t0 i n u p es h0 hp.1
  have hs := hI.start_some
  have hle : c.clock ≤ eTime e := by
    rw [hc, runCard_clock]
    exact hp.2
  have hstep : c' = step cfg c e := by
    rw [hc', hc]
    exact runCard_snoc cfg t0 _ es e
  subst hstep
  refine ⟨?_, ?_, ?_⟩
  · cases e with
    | playing now =>
        rw [rtime_playing cfg c now hs]
        by_cases hrb : c.rebufferingTimer > 0
        · rw [if_pos hrb]
          have hn : c.rebufferingTimer ≤ now :=
            le_trans hI.rebuf_le (by simpa [eTime] using hle)
          have hd : 0 ≤ (now - c.rebufferingTimer) / 1000 :=
            div_nonneg (by linarith) (by norm_num)
          linarith
        · rw [if_neg hrb]
    | canplay now =>
        rw [rtime_canplay cfg c now hs]
        by_cases hrb : c.rebufferingTimer > 0
        · rw [if_pos hrb]
          have hn : c.rebufferingTimer ≤ now :=
            le_trans hI.rebuf_le (by simpa [eTime] using hle)
          have hd : 0 ≤ (now - c.rebufferingTimer) / 1000 :=
            div_nonneg (by linarith) (by norm_num)
          linarith
        · rw [if_neg hrb]
    | mediaError now => rw [rtime_unch_mediaError cfg c now hs]
    | waiting now => rw [rtime_unch_waiting cfg c now hs]
    | stalled now => rw [rtime_unch_stalled cfg c now hs]
    | samplerTick now => rw [rtime_unch_samplerTick cfg c now hs]
    | completionFire now => rw [rtime_unch_completionFire cfg c now hs]
    | chaosTick now draw => rw [rtime_unch_chaosTick cfg c now draw hs]
    | beginPlayFire now => rw [rtime_unch_beginPlayFire cfg c now hs]
  · intro hne
    cases e with
    | playing now =>
        rw [rtime_playing cfg c now hs] at hne
        by_cases hrb : c.rebufferingTimer > 0
        · refine ⟨hrb, ?_, Or.inr rfl⟩
          rw [timer_playing, if_pos hrb]
        · rw [if_neg hrb] at hne
          exact absurd rfl hne
    | canplay now =>
        rw [rtime_canplay cfg c now hs] at hne
        by_cases hrb : c.rebufferingTimer > 0
        · refine ⟨hrb, ?_, Or.inl rfl⟩
          rw [timer_canplay, if_pos hrb]
        · rw [if_neg hrb] at hne
          exact absurd rfl hne
    | mediaError now =>
        rw [rtime_unch_mediaError cfg c now hs] at hne
        exact absurd rfl hne
    | waiting now =>
        rw [rtime_unch_waiting cfg c now hs] at hne
        exact absurd rfl hne
    | stalled now =>
        rw [rtime_unch_stalled cfg c now hs] at hne
        exact absurd rfl hne
    | samplerTick now =>
        rw [rtime_unch_samplerTick cfg c now hs] at hne
        exact absurd rfl hne
    | completionFire now =>
        rw [rtime_unch_completionFire cfg c now hs] at hne
        exact absurd rfl hne
    | chaosTick now draw =>
        rw [rtime_unch_chaosTick cfg c now draw hs] at hne
        exact absurd rfl hne
    | beginPlayFire now =>
        rw [rtime_unch_beginPlayFire cfg c now hs] at hne
        exact absurd rfl hne
  · intro t h0t
    rw [rtime_canplay cfg c t hs, if_neg (by rw [h0t]; exact lt_irrefl 0)]

/-! Witnesses: each applies its claim theorem at a concrete wellformed
run, discharging the hypotheses by computation. -/

theorem C1_witness :
    0 ≤ (0:ℚ) ∧ wfB 0 ([] ++ [Event.playing 5]) = true ∧
    ((runCard baselinePreset 0 (initialSim "w1" "W" "u" "baseline") []).sim.status
        = .completed →
      (runCard baselinePreset 0 (initialSim "w1" "W" "u" "baseline")
          ([] ++ [Event.playing 5])).sim.status = .completed) :=
  ⟨le_refl 0, by decide,
   (C1_statusForward baselinePreset 0 "w1" "W" "u" "baseline" [] (.playing 5)
      (le_refl 0) (by decide) _ _ rfl rfl).2.1⟩

theorem C2_witness :
    0 ≤ (2:ℚ) ∧ wfB 2 ([.playing 4] ++ [Event.samplerTick 6]) = true ∧
    0 ≤ (runCard latencyPreset 2 (initialSim "w2" "W" "u" "latency")
        ([.playing 4] ++ [Event.samplerTick 6])).sim.playbackPercent :=
  ⟨by decide, by decide,
   (C2_playbackPercent latencyPreset 2 "w2" "W" "u" "latency" [.playing 4]
      (.samplerTick 6) (by decide) (by decide) _ _ rfl rfl).2.2.1⟩

theorem C5_witness :
    0 ≤ (3:ℚ) ∧ wfB 3 ([] ++ [Event.playing 9]) = true ∧
    ((runCard spikeyPreset 3 (initialSim "w5" "W" "u" "spikey") []).sim.ttff = none →
      ¬(runCard spikeyPreset 3 (initialSim "w5" "W" "u" "spikey")
          ([] ++ [Event.playing 9])).sim.ttff = none →
      (Event.playing 9 = .playing (eTime (.playing 9))
        ∧ 0 < (runCard spikeyPreset 3 (initialSim "w5" "W" "u" "spikey") []).ttffStart
        ∧ ((runCard spikeyPreset 3 (initialSim "w5" "W" "u" "spikey") []).sim.status
              = .pending
            ∨ (runCard spikeyPreset 3 (initialSim "w5" "W" "u" "spikey") []).sim.status
              = .failed)
        ∧ (runCard spikeyPreset 3 (initialSim "w5" "W" "u" "spikey")
            ([] ++ [Event.playing 9])).sim.status = .running)) :=
  ⟨by decide, by decide,
   (C5_ttffOnce spikeyPreset 3 "w5" "W" "u" "spikey" [] (.playing 9)
      (by decide) (by decide) _ _ rfl rfl).2⟩

theorem C6_witness :
    0 ≤ (1:ℚ) ∧ wfB 1 ([.waiting 5] ++ [Event.canplay 8]) = true ∧
    (runCard notFoundPreset 1 (initialSim "w6" "W" "u" "404")
        [.waiting 5]).sim.rebufferingTime ≤
      (runCard notFoundPreset 1 (initialSim "w6" "W" "u" "404")
        ([.waiting 5] ++ [Event.canplay 8])).sim.rebufferingTime :=
  ⟨by decide, by decide,
   (C6_rebufferTime notFoundPreset 1 "w6" "W" "u" "404" [.waiting 5]
      (.canplay 8) (by decide) (by decide) _ _ rfl rfl).1⟩

theorem C7_witness :
    0 ≤ (4:ℚ) ∧ wfB 4 ([] ++ [Event.mediaError 6]) = true ∧
    (runCard baselinePreset 4 (initialSim "w7" "W" "u" "baseline") []).sim.errorCount ≤
      (runCard baselinePreset 4 (initialSim "w7" "W" "u" "baseline")
        ([] ++ [Event.mediaError 6])).sim.errorCount :=
  ⟨by decide, by decide,
   (C7_faultCount baselinePreset 4 "w7" "W" "u" "baseline" [] (.mediaError 6)
      (by decide) (by decide) _ _ rfl rfl).1⟩

theorem C8_witness :
    handleUpdateSimulation [initialSim "a" "n" "u" "baseline"] "zz" (.patch {}) =
      [initialSim "a" "n" "u" "baseline"]
    ∧ handleRemoveSimulation [initialSim "a" "n" "u" "baseline"] "zz" =
      [initialSim "a" "n" "u" "baseline"] :=
  C8_absentId [initialSim "a" "n" "u" "baseline"] "zz" (.patch {}) (by decide)

end MediaStability
